import Mathlib

/-!
Verification of the GlyphScope analysis pipeline (parser contract, risk
detector, intent scorer, explanation generator, FP/FN estimator) against a
shallow embedding of the JavaScript sources.

Modelling conventions:
* The pattern tree is regexpp's AST (`parseRegExpLiteral(...).pattern`), as
  produced by `src/parse.js`.  Node `type` strings and `kind` strings are
  exactly regexpp's vocabulary: types `Pattern`, `Alternative`, `Group`,
  `CapturingGroup`, `Quantifier`, `Character`, `CharacterSet`,
  `CharacterClass`, `CharacterClassRange`, `Assertion`, `Backreference`;
  character-set kinds `any`, `digit`, `space`, `word`, `property`; assertion
  kinds `start`, `end`, `word`, `lookahead`, `lookbehind` (negation is a
  separate `negate` flag).  A quantifier's `max` is a JS number that is
  `Infinity` for an open-ended quantifier (never `null`).
* JS duck-typed field reads (`n?.quantifier`, `n?.target`, ...) are embedded
  as total accessors returning `Option`/default values; a field regexpp nodes
  never carry reads as `none` (JS `undefined`).
* JS number arithmetic on the small scores and confidences involved is
  modelled over `Int`/`Rat`.
* The recursive object walks are modelled as pre-order traversals of the
  tree-structural fields; regexpp's `parent` back-references (and the
  `references`/`resolved` links of capturing groups) are not tree edges, so
  the walks of `risks.js`/`intentmap.js` (which skip `parent` and de-dup by
  identity) visit exactly the structural node set modelled here.  The
  unguarded walk of the estimator is studied separately on an explicit
  object-graph model.
-/

namespace GS

/-- Substring test on explicit character lists: `hasPrefixL p l` holds when
`p` is an initial segment of `l`. -/
def hasPrefixL : List Char → List Char → Bool
  | [], _ => true
  | _ :: _, [] => false
  | p :: ps, c :: cs => p == c && hasPrefixL ps cs

/-- Substring occurrence test on character lists. -/
def hasSubL (p : List Char) : List Char → Bool
  | [] => hasPrefixL p []
  | c :: cs => hasPrefixL p (c :: cs) || hasSubL p cs

/-- JS `String.prototype.includes`, embedded over the code-point lists. -/
def strContains (hay pat : String) : Bool :=
  hasSubL pat.data hay.data

/-- A JS number in a quantifier's `max` slot: a finite natural or `Infinity`. -/
inductive JNum where
  | fin (n : Nat)
  | inf
deriving DecidableEq

/-- regexpp character-set kinds (`.` parses to kind `any`).  A unicode
property set carries its `key` and optional `value` fields. -/
inductive CSKind where
  | any
  | digit
  | space
  | word
  | property (key : String) (pvalue : Option String)
deriving DecidableEq

/-- regexpp assertion kinds (`endk` renders as the string `end`). -/
inductive AKind where
  | start
  | endk
  | word
  | lookahead
  | lookbehind
deriving DecidableEq

/-- A backreference target: by number or by group name. -/
inductive BRef where
  | num (n : Nat)
  | name (s : String)
deriving DecidableEq

/-- The regexpp pattern tree.  `astart`/`aend` are the node's `start`/`end`
offsets into the literal, `raw` its source slice.  Edge and boundary
assertions carry the empty `alternatives` list (regexpp gives them no such
field; every consumer reads it behind an emptiness check). -/
inductive RNode where
  | pattern (raw : String) (astart aend : Nat) (alternatives : List RNode)
  | alternative (raw : String) (astart aend : Nat) (elements : List RNode)
  | group (raw : String) (astart aend : Nat) (alternatives : List RNode)
  | capturingGroup (raw : String) (astart aend : Nat) (gname : Option String)
      (gnumber : Nat) (alternatives : List RNode)
  | quantifier (raw : String) (astart aend : Nat) (qmin : Nat) (qmax : JNum)
      (greedy : Bool) (element : RNode)
  | character (raw : String) (astart aend : Nat) (value : Nat)
  | characterSet (raw : String) (astart aend : Nat) (kind : CSKind) (negate : Bool)
  | characterClass (raw : String) (astart aend : Nat) (negate : Bool)
      (elements : List RNode)
  | classRange (raw : String) (astart aend : Nat) (rmin rmax : RNode)
  | assertion (raw : String) (astart aend : Nat) (kind : AKind) (negate : Bool)
      (alternatives : List RNode)
  | backreference (raw : String) (astart aend : Nat) (ref : BRef)

namespace RNode

/-- The node's `type` string, exactly as regexpp spells it. -/
def typeStr : RNode → String
  | .pattern .. => "Pattern"
  | .alternative .. => "Alternative"
  | .group .. => "Group"
  | .capturingGroup .. => "CapturingGroup"
  | .quantifier .. => "Quantifier"
  | .character .. => "Character"
  | .characterSet .. => "CharacterSet"
  | .characterClass .. => "CharacterClass"
  | .classRange .. => "CharacterClassRange"
  | .assertion .. => "Assertion"
  | .backreference .. => "Backreference"

/-- The node's `raw` source slice. -/
def rawOf : RNode → String
  | .pattern r .. => r
  | .alternative r .. => r
  | .group r .. => r
  | .capturingGroup r .. => r
  | .quantifier r .. => r
  | .character r .. => r
  | .characterSet r .. => r
  | .characterClass r .. => r
  | .classRange r .. => r
  | .assertion r .. => r
  | .backreference r .. => r

/-- The `kind` string of a node (`n?.kind`): present on character sets and
assertions, `undefined` elsewhere. -/
def kindOf : RNode → Option String
  | .characterSet _ _ _ k _ =>
      some (match k with
        | .any => "any"
        | .digit => "digit"
        | .space => "space"
        | .word => "word"
        | .property _ _ => "property")
  | .assertion _ _ _ k _ _ =>
      some (match k with
        | .start => "start"
        | .endk => "end"
        | .word => "word"
        | .lookahead => "lookahead"
        | .lookbehind => "lookbehind")
  | _ => none

/-- Truthiness of `n.negate` (`undefined` on nodes without the field). -/
def negateOf : RNode → Bool
  | .characterSet _ _ _ _ n => n
  | .characterClass _ _ _ n _ => n
  | .assertion _ _ _ _ n _ => n
  | _ => false

/-- `n.elements` read as an array, with `undefined` collapsing to `[]`
(every consumer guards the read with an emptiness/array check). -/
def elementsOf : RNode → List RNode
  | .alternative _ _ _ els => els
  | .characterClass _ _ _ _ els => els
  | _ => []

/-- Whether the node actually carries an `elements` array (for the
`Array.isArray(n.elements)` guards). -/
def hasElementsField : RNode → Bool
  | .alternative .. => true
  | .characterClass .. => true
  | _ => false

/-- `n.alternatives` read, with `undefined` collapsing to `[]`. -/
def alternativesOf : RNode → List RNode
  | .pattern _ _ _ alts => alts
  | .group _ _ _ alts => alts
  | .capturingGroup _ _ _ _ _ alts => alts
  | .assertion _ _ _ _ _ alts => alts
  | _ => []

/-- `n?.element` (only quantifiers carry one). -/
def elementOf : RNode → Option RNode
  | .quantifier _ _ _ _ _ _ el => el
  | _ => none

/-- `n?.quantifier`: regexpp represents a quantified element as a
`Quantifier` node wrapping it; no regexpp node carries a `quantifier`
field, so this duck-typed read is always `undefined`. -/
def quantifierOf : RNode → Option RNode := fun _ => none

/-- `n?.target`: no regexpp node carries a `target` field. -/
def targetOf : RNode → Option RNode := fun _ => none

/-- The quantifier data `(min, max, greedy)` of a `Quantifier` node. -/
def quantData : RNode → Option (Nat × JNum × Bool)
  | .quantifier _ _ _ mn mx g _ => some (mn, mx, g)
  | _ => none

end RNode

mutual
/-- The depth-first pre-order node walk shared by `risks.js` and
`intentmap.js` (`walk(node, fn)` with the visited set and the `parent`
skip): the list of visited nodes.  Per node it descends into the
object-valued own fields other than `parent` (and other than the
`references`/`resolved` identity links of capturing groups and
backreferences, which point back into this same node set and are absorbed
by the walk's visited set). -/
def walkList : RNode → List RNode
  | .pattern r s e alts => .pattern r s e alts :: walkKids alts
  | .alternative r s e els => .alternative r s e els :: walkKids els
  | .group r s e alts => .group r s e alts :: walkKids alts
  | .capturingGroup r s e nm num alts =>
      .capturingGroup r s e nm num alts :: walkKids alts
  | .quantifier r s e mn mx g el => .quantifier r s e mn mx g el :: walkList el
  | .character r s e v => [.character r s e v]
  | .characterSet r s e k neg => [.characterSet r s e k neg]
  | .characterClass r s e neg els => .characterClass r s e neg els :: walkKids els
  | .classRange r s e lo hi => .classRange r s e lo hi :: (walkList lo ++ walkList hi)
  | .assertion r s e k neg alts => .assertion r s e k neg alts :: walkKids alts
  | .backreference r s e rf => [.backreference r s e rf]

/-- `walkList` concatenated over a child array. -/
def walkKids : List RNode → List RNode
  | [] => []
  | c :: cs => walkList c ++ walkKids cs
end

mutual
/-- The same walk, pairing each visited node with its parent node (`none`
at the walk's root, where `n.parent` reads `undefined`), for the one
consumer that reads `n.parent?.type`. -/
def walkWPN : Option RNode → RNode → List (Option RNode × RNode)
  | pt, .pattern r s e alts =>
      (pt, .pattern r s e alts) :: walkWPNKids (.pattern r s e alts) alts
  | pt, .alternative r s e els =>
      (pt, .alternative r s e els) :: walkWPNKids (.alternative r s e els) els
  | pt, .group r s e alts =>
      (pt, .group r s e alts) :: walkWPNKids (.group r s e alts) alts
  | pt, .capturingGroup r s e nm num alts =>
      (pt, .capturingGroup r s e nm num alts)
        :: walkWPNKids (.capturingGroup r s e nm num alts) alts
  | pt, .quantifier r s e mn mx g el =>
      (pt, .quantifier r s e mn mx g el)
        :: walkWPN (some (.quantifier r s e mn mx g el)) el
  | pt, .character r s e v => [(pt, .character r s e v)]
  | pt, .characterSet r s e k neg => [(pt, .characterSet r s e k neg)]
  | pt, .characterClass r s e neg els =>
      (pt, .characterClass r s e neg els)
        :: walkWPNKids (.characterClass r s e neg els) els
  | pt, .classRange r s e lo hi =>
      (pt, .classRange r s e lo hi) ::
        (walkWPN (some (.classRange r s e lo hi)) lo
          ++ walkWPN (some (.classRange r s e lo hi)) hi)
  | pt, .assertion r s e k neg alts =>
      (pt, .assertion r s e k neg alts)
        :: walkWPNKids (.assertion r s e k neg alts) alts
  | pt, .backreference r s e rf => [(pt, .backreference r s e rf)]

/-- `walkWPN` concatenated over the child array of the given parent. -/
def walkWPNKids : RNode → List RNode → List (Option RNode × RNode)
  | _, [] => []
  | pt, c :: cs => walkWPN (some pt) c ++ walkWPNKids pt cs
end

mutual
/-- Structural equality test on nodes, standing in for JS object identity in
the one place the sources compare nodes (`inner !== n`): distinct objects of
the walks compared there are always structurally distinct as well. -/
def nodeBeq : RNode → RNode → Bool
  | .pattern r s e alts, .pattern r' s' e' alts' =>
      r == r' && s == s' && e == e' && nodesBeq alts alts'
  | .alternative r s e els, .alternative r' s' e' els' =>
      r == r' && s == s' && e == e' && nodesBeq els els'
  | .group r s e alts, .group r' s' e' alts' =>
      r == r' && s == s' && e == e' && nodesBeq alts alts'
  | .capturingGroup r s e nm num alts, .capturingGroup r' s' e' nm' num' alts' =>
      r == r' && s == s' && e == e' && nm == nm' && num == num' && nodesBeq alts alts'
  | .quantifier r s e mn mx g el, .quantifier r' s' e' mn' mx' g' el' =>
      r == r' && s == s' && e == e' && mn == mn' && decide (mx = mx') && g == g'
        && nodeBeq el el'
  | .character r s e v, .character r' s' e' v' =>
      r == r' && s == s' && e == e' && v == v'
  | .characterSet r s e k neg, .characterSet r' s' e' k' neg' =>
      r == r' && s == s' && e == e' && decide (k = k') && neg == neg'
  | .characterClass r s e neg els, .characterClass r' s' e' neg' els' =>
      r == r' && s == s' && e == e' && neg == neg' && nodesBeq els els'
  | .classRange r s e lo hi, .classRange r' s' e' lo' hi' =>
      r == r' && s == s' && e == e' && nodeBeq lo lo' && nodeBeq hi hi'
  | .assertion r s e k neg alts, .assertion r' s' e' k' neg' alts' =>
      r == r' && s == s' && e == e' && decide (k = k') && neg == neg'
        && nodesBeq alts alts'
  | .backreference r s e rf, .backreference r' s' e' rf' =>
      r == r' && s == s' && e == e' && decide (rf = rf')
  | _, _ => false

/-- `nodeBeq` lifted to lists. -/
def nodesBeq : List RNode → List RNode → Bool
  | [], [] => true
  | a :: as_, b :: bs => nodeBeq a b && nodesBeq as_ bs
  | _, _ => false
end

/-- The node's `start` offset (regexpp sets it on every node). -/
def RNode.startOf : RNode → Nat
  | .pattern _ s _ _ => s
  | .alternative _ s _ _ => s
  | .group _ s _ _ => s
  | .capturingGroup _ s _ _ _ _ => s
  | .quantifier _ s _ _ _ _ _ => s
  | .character _ s _ _ => s
  | .characterSet _ s _ _ _ => s
  | .characterClass _ s _ _ _ => s
  | .classRange _ s _ _ _ => s
  | .assertion _ s _ _ _ _ => s
  | .backreference _ s _ _ => s

/-- The node's `end` offset. -/
def RNode.endOf : RNode → Nat
  | .pattern _ _ e _ => e
  | .alternative _ _ e _ => e
  | .group _ _ e _ => e
  | .capturingGroup _ _ e _ _ _ => e
  | .quantifier _ _ e _ _ _ _ => e
  | .character _ _ e _ => e
  | .characterSet _ _ e _ _ => e
  | .characterClass _ _ e _ _ => e
  | .classRange _ _ e _ _ => e
  | .assertion _ _ e _ _ _ => e
  | .backreference _ _ e _ => e

/-- A pattern-text evidence span. -/
structure Span where
  start : Nat
  stop : Nat
deriving DecidableEq

/-- The six-boolean flags record (`contracts.js` `Flags`). -/
structure Flags where
  g : Bool
  i : Bool
  m : Bool
  s : Bool
  u : Bool
  y : Bool
deriving DecidableEq

/-- `flagsToString` of `contracts.js`: canonical `gimsuy` order. -/
def flagsToString (f : Flags) : String :=
  (if f.g then "g" else "") ++ (if f.i then "i" else "") ++ (if f.m then "m" else "")
    ++ (if f.s then "s" else "") ++ (if f.u then "u" else "") ++ (if f.y then "y" else "")

/-- Warning severity. -/
inductive Sev where
  | info
  | low
  | medium
  | high
deriving DecidableEq

/-- Warning evidence (`{patternSpans?, examples?}`). -/
structure EvidenceV where
  patternSpans : Option (List Span)
  examples : Option (List String)
deriving DecidableEq

/-- A risk warning record. -/
structure Warning where
  id : String
  severity : Sev
  title : String
  message : String
  evidence : Option EvidenceV
deriving DecidableEq

/-! The `RISK` id table and `T` message table of `risks.js`, transcribed
character for character (apostrophes written `\x27`, braces `\x7b`/`\x7d`). -/

namespace RISK

def POTENTIAL_BACKTRACKING : String := "RISK_POTENTIAL_BACKTRACKING"
def NESTED_QUANTIFIERS : String := "RISK_NESTED_QUANTIFIERS"
def AMBIGUOUS_WILDCARD : String := "RISK_AMBIGUOUS_WILDCARD"
def UNANCHORED_MISMATCH : String := "RISK_UNANCHORED_MISMATCH"
def DOTALL_EXPECTED : String := "RISK_DOTALL_EXPECTED"
def MULTILINE_ANCHOR_CONFUSION : String := "RISK_MULTILINE_ANCHOR_CONFUSION"
def EMPTY_ALTERNATION : String := "RISK_EMPTY_ALTERNATION"
def OVERBROAD_CLASS : String := "RISK_OVERBROAD_CLASS"
def REDUNDANT_QUANTIFIERS : String := "RISK_REDUNDANT_QUANTIFIERS"
def LOOKAROUND_COMPLEXITY : String := "RISK_LOOKAROUND_COMPLEXITY"
def STICKY_WITH_GLOBAL : String := "RISK_STICKY_WITH_GLOBAL"
def UNICODE_FLAG_MISMATCH : String := "RISK_UNICODE_FLAG_MISMATCH"

end RISK

namespace Tmsg

def potentialBacktrackingTitle : String := "Potential performance risk"
def potentialBacktrackingMsg : String :=
  "This pattern can take a long time on certain inputs (especially long non-matching strings). Treat this as a potential risk, not a guarantee."
def nestedQuantifiersTitle : String := "Nested quantifiers"
def nestedQuantifiersMsg : String :=
  "A quantified group contains another quantifier (example: (a+)+). This is a common cause of catastrophic backtracking."
def ambiguousWildcardTitle : String := "Greedy wildcard may be too broad"
def ambiguousWildcardMsg : String :=
  "A greedy wildcard like .* or .+ can swallow more than intended. Consider anchoring or narrowing the match."
def unanchoredMismatchTitle : String := "Anchoring looks incomplete"
def unanchoredMismatchMsg : String :=
  "This pattern has only one anchor (^ or $). If you intended a full-string match, you usually want both."
def dotallExpectedTitle : String := "Dot does not match newlines"
def dotallExpectedMsg : String :=
  "Your sample contains newlines, but \x27.\x27 will stop at newline unless the \x27s\x27 flag is set."
def multilineAnchorConfusionTitle : String := "Multiline anchoring can surprise you"
def multilineAnchorConfusionMsg : String :=
  "With the \x27m\x27 flag, ^ and $ match line boundaries, not just start/end of the whole text."
def emptyAltTitle : String := "Empty alternative"
def emptyAltMsg : String :=
  "An alternation contains an empty branch (example: a|). This may match unexpectedly."
def overbroadClassTitle : String := "Over-broad character class"
def overbroadClassMsg : String :=
  "A character class like [\\s\\S] or [\\d\\D] matches almost everything. That can be correct, but it often hides mistakes."
def redundantQuantTitle : String := "Redundant quantifier"
def redundantQuantMsg : String :=
  "Quantifiers like \x7b0,\x7d or \x7b1,\x7d are equivalent to * or +. This can reduce readability."
def lookaroundComplexTitle : String := "Lookarounds increase complexity"
def lookaroundComplexMsg : String :=
  "Lookaheads/lookbehinds can be correct, but they make the regex harder to reason about. Double-check edge cases."
def stickyWithGlobalTitle : String := "Sticky + global flags"
def stickyWithGlobalMsg : String :=
  "Using both \x27y\x27 (sticky) and \x27g\x27 (global) is unusual. Make sure you intended sticky matching behavior."
def unicodeFlagMismatchTitle : String := "Unicode-related behavior"
def unicodeFlagMismatchMsg : String :=
  "Unicode escapes/properties can behave differently depending on the \x27u\x27 flag. Verify the flag matches your intent."

end Tmsg

/-- `spanOf` of `risks.js`: both offsets are numbers on every regexpp node,
so the read always succeeds. -/
def spanOf (n : RNode) : Option Span :=
  some ⟨n.startOf, n.endOf⟩

/-- `isDot` of `risks.js`: `n?.type === "CharacterSet" && n?.kind === "dot"`.
regexpp renders the dot character set with kind `any`, not `dot`. -/
def isDot (n : RNode) : Bool :=
  n.typeStr == "CharacterSet" && n.kindOf == some "dot"

/-- Read of `q.greedy !== false` on an arbitrary node: `true` when the node
has no `greedy` field (`undefined !== false`). -/
def jsGreedyRead (q : RNode) : Bool :=
  match q.quantData with
  | some (_, _, g) => g
  | none => true

/-- Read of `q.max == null` (loose equality) on an arbitrary node: a JS
number — `Infinity` included — is never loosely equal to `null`, while a
missing field (`undefined`) is. -/
def jsMaxEqNullRead (q : RNode) : Bool :=
  match q.quantData with
  | some _ => false
  | none => true

/-- Read of `q.min` with the `typeof q.min === "number" ? q.min : 1`
fallback. -/
def jsMinRead (q : RNode) : Nat :=
  match q.quantData with
  | some (mn, _, _) => mn
  | none => 1

/-- Whether `q`'s effective max (`q.max == null ? Infinity : q.max`) is
`Infinity` or exceeds its effective min. -/
def jsMaxExpands (q : RNode) : Bool :=
  match q.quantData with
  | some (_, .inf, _) => true
  | some (mn, .fin m, _) => decide (mn < m)
  | none => true

/-- `isGreedyDotQuantified` of `risks.js`.  The `node?.quantifier` read is
`undefined` on every regexpp node, so the guard `if (!q) return false`
always takes effect. -/
def isGreedyDotQuantified (node : RNode) : Bool :=
  let el := (RNode.elementOf node).getD node
  match RNode.quantifierOf node with
  | none => false
  | some q => isDot el && (jsGreedyRead q && jsMaxExpands q)

/-- `n?.quantifier != null || n?.type === "Quantifier"`. -/
def hasQuantMark (n : RNode) : Bool :=
  (RNode.quantifierOf n).isSome || n.typeStr == "Quantifier"

/-- `detectNestedQuantifiers` of `risks.js`: spans of quantified nodes whose
target sub-tree holds another quantified node (`null` is modelled as the
empty span list). -/
def detectNestedQuantifiers (ast : RNode) : List Span :=
  (walkList ast).filterMap fun n =>
    if !hasQuantMark n then none
    else
      match (RNode.elementOf n).orElse (fun _ => RNode.targetOf n) with
      | none => none
      | some target =>
          if (walkList target).any (fun inner =>
              !nodeBeq inner n && hasQuantMark inner) then
            (spanOf n).orElse (fun _ => spanOf target)
          else none

/-- `detectObviousBacktrackingShapes` of `risks.js`.  `n?.quantifier` is
`undefined` on every regexpp node and `q.max == null` is false for the
number-valued `max`, so no node can pass the guards. -/
def detectObviousBacktrackingShapes (ast : RNode) : List Span :=
  (walkList ast).filterMap fun n =>
    match RNode.quantifierOf n, RNode.elementOf n with
    | some q, some target =>
        if !(jsGreedyRead q && jsMaxEqNullRead q) then none
        else
          let innerAlt := (walkList target).any fun inner =>
            inner.typeStr == "AlternationExpression" || inner.typeStr == "Alternative"
          let innerDotQ := (walkList target).any isGreedyDotQuantified
          let innerQuant := (walkList target).any fun inner =>
            !nodeBeq inner n && hasQuantMark inner
          if innerDotQ || (innerAlt && innerQuant) then
            (spanOf n).orElse (fun _ => spanOf target)
          else none
    | _, _ => none

/-- `detectAnchors` of `risks.js`. -/
def detectAnchors (ast : RNode) : Bool × Bool :=
  ((walkList ast).any fun n =>
      n.typeStr == "Assertion" && n.kindOf == some "start",
   (walkList ast).any fun n =>
      n.typeStr == "Assertion" && n.kindOf == some "end")

/-- `detectEmptyAlternation` of `risks.js`. -/
def detectEmptyAlternation (ast : RNode) : List Span :=
  (walkList ast).filterMap fun n =>
    if n.typeStr == "Alternative" && n.hasElementsField && n.elementsOf.isEmpty then
      spanOf n
    else none

/-- `detectOverbroadClass` of `risks.js`. -/
def detectOverbroadClass (ast : RNode) : List Span :=
  (walkList ast).filterMap fun n =>
    if n.typeStr == "CharacterClass" && n.rawOf != ""
        && (strContains n.rawOf "\\s\\S" || strContains n.rawOf "\\d\\D"
            || strContains n.rawOf "\\w\\W") then
      spanOf n
    else none

/-- `n?.quantifier ?? (n?.type === "Quantifier" ? n : null)`. -/
def redundantQuantSource (n : RNode) : Option RNode :=
  (RNode.quantifierOf n).orElse fun _ =>
    if n.typeStr == "Quantifier" then some n else none

/-- `detectRedundantQuantifiers` of `risks.js`.  Each of its three hit
branches evaluates `spans.push(spanOf(n)).filter(Boolean)`: `push` returns
the new length, a number, so `.filter` raises a `TypeError` — the detector
throws on the first redundant quantifier and otherwise collects nothing. -/
def detectRedundantQuantifiers (ast : RNode) : Except String (List Span) :=
  if (walkList ast).any (fun n =>
      match redundantQuantSource n with
      | none => false
      | some q =>
          (jsMinRead q == 0 && jsMaxEqNullRead q)
            || (jsMinRead q == 1 && jsMaxEqNullRead q)
            || (jsMinRead q == 0 && (match q.quantData with
                  | some (_, mx, _) => mx = JNum.fin 1
                  | none => false))) then
    .error "TypeError: spans.push(...).filter is not a function"
  else .ok []

/-- `detectLookarounds` of `risks.js`. -/
def detectLookarounds (ast : RNode) : List Span :=
  (walkList ast).filterMap fun n =>
    if n.typeStr == "Assertion"
        && (n.kindOf == some "lookahead" || n.kindOf == some "lookbehind") then
      spanOf n
    else none

/-- `detectMultilineAnchorConfusion` of `risks.js`. -/
def detectMultilineAnchorConfusion (fl : Flags) (hasAnchors : Bool) : Bool :=
  fl.m && hasAnchors

/-- `detectDotallExpected` of `risks.js`. -/
def detectDotallExpected (ast : RNode) (fl : Flags) (sampleText : String) : Bool :=
  if fl.s then false
  else if sampleText == "" || !strContains sampleText "\n" then false
  else (walkList ast).any isDot

/-- `detectStickyWithGlobal` of `risks.js`. -/
def detectStickyWithGlobal (fl : Flags) : Bool :=
  fl.y && fl.g

/-- `detectUnicodeFlagMismatch` of `risks.js`. -/
def detectUnicodeFlagMismatch (ast : RNode) (fl : Flags) : Bool :=
  let hasUnicodeProps := (walkList ast).any fun n =>
    n.rawOf != ""
      && (strContains n.rawOf "\\p\x7b" || strContains n.rawOf "\\P\x7b")
  let hasUnicodeCodepoint := (walkList ast).any fun n =>
    n.rawOf != "" && strContains n.rawOf "\\u\x7b"
  !fl.u && (hasUnicodeProps || hasUnicodeCodepoint)

/-- `detectRisks` of `risks.js`.  The wall-clock-dependent result of
`dynamicBacktrackingProbe` is supplied as the oracle `probeNote` (the note
string when the probe flags a slow test, otherwise `none`); the function
consults it only when backtracking shapes were detected and a context
pattern is present.  A JS exception escaping the function is modelled as
`Except.error`. -/
def detectRisks (ast : RNode) (fl : Flags) (sampleText : String)
    (ctxPattern : Option String) (probeNote : Option String) :
    Except String (List Warning) :=
  let anchors := detectAnchors ast
  let hasStart := anchors.1
  let hasEnd := anchors.2
  let isExtractionMode := fl.g
  let nested := detectNestedQuantifiers ast
  let w1 : List Warning :=
    if nested != [] then
      [{ id := RISK.NESTED_QUANTIFIERS, severity := .high,
         title := Tmsg.nestedQuantifiersTitle, message := Tmsg.nestedQuantifiersMsg,
         evidence := some ⟨some nested, none⟩ }]
    else []
  let backShapes := detectObviousBacktrackingShapes ast
  let w2 : List Warning :=
    if backShapes != [] then
      let examples : List String :=
        match ctxPattern with
        | some _ => (match probeNote with | some note => [note] | none => [])
        | none => []
      [{ id := RISK.POTENTIAL_BACKTRACKING,
         severity := if nested != [] then .high else .medium,
         title := Tmsg.potentialBacktrackingTitle,
         message := Tmsg.potentialBacktrackingMsg,
         evidence := some ⟨some backShapes,
                           if examples != [] then some examples else none⟩ }]
    else []
  let dotSpans := (walkList ast).filterMap fun n =>
    if isGreedyDotQuantified n then spanOf n else none
  let w3 : List Warning :=
    if dotSpans != [] then
      [{ id := RISK.AMBIGUOUS_WILDCARD, severity := .medium,
         title := Tmsg.ambiguousWildcardTitle, message := Tmsg.ambiguousWildcardMsg,
         evidence := some ⟨some dotSpans, none⟩ }]
    else []
  let w4 : List Warning :=
    if !isExtractionMode && hasStart != hasEnd then
      [{ id := RISK.UNANCHORED_MISMATCH, severity := .low,
         title := Tmsg.unanchoredMismatchTitle, message := Tmsg.unanchoredMismatchMsg,
         evidence := some ⟨some [⟨ast.startOf, ast.endOf⟩], none⟩ }]
    else []
  let w5 : List Warning :=
    if detectDotallExpected ast fl sampleText then
      [{ id := RISK.DOTALL_EXPECTED, severity := .low,
         title := Tmsg.dotallExpectedTitle, message := Tmsg.dotallExpectedMsg,
         evidence := none }]
    else []
  let w6 : List Warning :=
    if detectMultilineAnchorConfusion fl (hasStart || hasEnd) then
      [{ id := RISK.MULTILINE_ANCHOR_CONFUSION, severity := .info,
         title := Tmsg.multilineAnchorConfusionTitle,
         message := Tmsg.multilineAnchorConfusionMsg, evidence := none }]
    else []
  let emptyAlt := detectEmptyAlternation ast
  let w7 : List Warning :=
    if emptyAlt != [] then
      [{ id := RISK.EMPTY_ALTERNATION, severity := .medium,
         title := Tmsg.emptyAltTitle, message := Tmsg.emptyAltMsg,
         evidence := some ⟨some emptyAlt, none⟩ }]
    else []
  let overbroad := detectOverbroadClass ast
  let w8 : List Warning :=
    if overbroad != [] then
      [{ id := RISK.OVERBROAD_CLASS, severity := .info,
         title := Tmsg.overbroadClassTitle, message := Tmsg.overbroadClassMsg,
         evidence := some ⟨some overbroad, none⟩ }]
    else []
  match detectRedundantQuantifiers ast with
  | .error e => .error e
  | .ok redSpans =>
    let w9 : List Warning :=
      if redSpans != [] then
        [{ id := RISK.REDUNDANT_QUANTIFIERS, severity := .info,
           title := Tmsg.redundantQuantTitle, message := Tmsg.redundantQuantMsg,
           evidence := some ⟨some redSpans, none⟩ }]
      else []
    let look := detectLookarounds ast
    let w10 : List Warning :=
      if look != [] then
        [{ id := RISK.LOOKAROUND_COMPLEXITY, severity := .info,
           title := Tmsg.lookaroundComplexTitle, message := Tmsg.lookaroundComplexMsg,
           evidence := some ⟨some look, none⟩ }]
      else []
    let w11 : List Warning :=
      if detectStickyWithGlobal fl then
        [{ id := RISK.STICKY_WITH_GLOBAL, severity := .info,
           title := Tmsg.stickyWithGlobalTitle, message := Tmsg.stickyWithGlobalMsg,
           evidence := none }]
      else []
    let w12 : List Warning :=
      if detectUnicodeFlagMismatch ast fl then
        [{ id := RISK.UNICODE_FLAG_MISMATCH, severity := .low,
           title := Tmsg.unicodeFlagMismatchTitle,
           message := Tmsg.unicodeFlagMismatchMsg, evidence := none }]
      else []
    .ok (w1 ++ w2 ++ w3 ++ w4 ++ w5 ++ w6 ++ w7 ++ w8 ++ w9 ++ w10 ++ w11 ++ w12)

/-- The message-wording hedge: none of the certainty words `will`,
`always`, `guaranteed` occurs in the string. -/
def hedgedMsg (s : String) : Bool :=
  !(strContains s "will" || strContains s "always" || strContains s "guaranteed")

/-- The all-false flags record (no flag checkbox set). -/
def flagsNone : Flags := ⟨false, false, false, false, false, false⟩

/-- The regexpp tree of the pattern `(a+)+$` (the `Pattern` node of
`parseRegExpLiteral("/(a+)+$/")`, offsets into the literal). -/
def treeAPlusPlus : RNode :=
  .pattern "(a+)+$" 1 8
    [.alternative "(a+)+$" 1 8
      [.quantifier "(a+)+" 1 6 1 .inf true
        (.capturingGroup "(a+)" 1 5 none 1
          [.alternative "a+" 2 4
            [.quantifier "a+" 2 4 1 .inf true (.character "a" 2 3 97)]]),
       .assertion "$" 7 8 .endk false []]]

/-- The Scenario 3 sample text. -/
def sampleAAAX : String := "aaaaaaaaaaaaaaaaaaaaaaaaX"

/-- What `detectRisks` actually returns on the `(a+)+$` tree. -/
def warningsAPlusPlus : List Warning :=
  [{ id := RISK.NESTED_QUANTIFIERS, severity := .high,
     title := Tmsg.nestedQuantifiersTitle, message := Tmsg.nestedQuantifiersMsg,
     evidence := some ⟨some [⟨1, 6⟩], none⟩ },
   { id := RISK.UNANCHORED_MISMATCH, severity := .low,
     title := Tmsg.unanchoredMismatchTitle, message := Tmsg.unanchoredMismatchMsg,
     evidence := some ⟨some [⟨1, 8⟩], none⟩ }]

theorem isDot_eq_false (n : RNode) : isDot n = false := by
  cases n with
  | characterSet r s e k neg => cases k <;> rfl
  | pattern r s e alts => rfl
  | alternative r s e els => rfl
  | group r s e alts => rfl
  | capturingGroup r s e nm num alts => rfl
  | quantifier r s e mn mx g el => rfl
  | character r s e v => rfl
  | characterClass r s e neg els => rfl
  | classRange r s e lo hi => rfl
  | assertion r s e k neg alts => rfl
  | backreference r s e rf => rfl

theorem isGreedyDotQuantified_eq_false (n : RNode) :
    isGreedyDotQuantified n = false := rfl

theorem detectObviousBacktrackingShapes_eq_nil (ast : RNode) :
    detectObviousBacktrackingShapes ast = [] := by
  unfold detectObviousBacktrackingShapes
  exact List.filterMap_eq_nil_iff.mpr fun a _ => rfl

theorem detectDotallExpected_eq_false (ast : RNode) (fl : Flags)
    (sample : String) : detectDotallExpected ast fl sample = false := by
  unfold detectDotallExpected
  split
  · rfl
  · split
    · rfl
    · simp only [List.any_eq_false]
      intro x _
      simp [isDot_eq_false]

theorem detectRedundantQuantifiers_ok_nil {ast : RNode} {l : List Span}
    (h : detectRedundantQuantifiers ast = .ok l) : l = [] := by
  unfold detectRedundantQuantifiers at h
  split at h
  · exact absurd h (by simp)
  · simpa using h.symm

/-- C2.  On the parsed tree of `(a+)+$` with no flags and the sample
`aaaaaaaaaaaaaaaaaaaaaaaaX`, `detectRisks` emits only the nested-quantifiers
warning (severity high) and the anchoring-mismatch warning (severity low):
the claimed potential-backtracking warning is absent, whatever the timing
probe would report, because `detectObviousBacktrackingShapes` probes the
`n.quantifier` field that regexpp nodes never carry. -/
theorem c2_no_potential_backtracking_warning :
    ∀ probeNote : Option String,
      (detectRisks treeAPlusPlus flagsNone sampleAAAX (some "(a+)+$")
          probeNote).map (List.map fun w => (w.id, w.severity))
        = .ok [(RISK.NESTED_QUANTIFIERS, Sev.high),
               (RISK.UNANCHORED_MISMATCH, Sev.low)] :=
  fun _ => rfl

/-- C3.  Every warning message in any list `detectRisks` returns is free of
the certainty words `will`, `always` and `guaranteed`: the only message
containing one (`dotallExpectedMsg`, with `will`) is attached to the
dot-all rule, which can never fire because `isDot` tests for the character
set kind `dot` while regexpp names it `any`. -/
theorem c3_risk_messages_contain_no_certainty_words (ast : RNode) (fl : Flags)
    (sample : String) (ctxPattern probeNote : Option String) (ws : List Warning)
    (h : detectRisks ast fl sample ctxPattern probeNote = .ok ws) :
    ∀ w ∈ ws, hedgedMsg w.message = true := by
  unfold detectRisks at h
  rcases hred : detectRedundantQuantifiers ast with e | redSpans
  · rw [hred] at h
    exact absurd h (by simp)
  · rw [hred] at h
    rw [detectRedundantQuantifiers_ok_nil hred] at h
    simp only [Except.ok.injEq] at h
    subst h
    intro w hw
    simp only [List.mem_append] at hw
    rcases hw with ((((((((((hw | hw) | hw) | hw) | hw) | hw) | hw) | hw) | hw) | hw) | hw) | hw
    all_goals
      first
      | (rw [detectDotallExpected_eq_false] at hw; simp at hw)
      | (split at hw
         · simp only [List.mem_singleton] at hw
           subst hw
           rfl
         · simp at hw)

/-- The hypotheses of the hedging theorem discharged at Scenario 3's
concrete input: the nested-quantifiers message it returns is hedged. -/
theorem c3_certainty_words_witness :
    hedgedMsg Tmsg.nestedQuantifiersMsg = true :=
  c3_risk_messages_contain_no_certainty_words treeAPlusPlus flagsNone sampleAAAX
    (some "(a+)+$") none warningsAPlusPlus rfl
    { id := RISK.NESTED_QUANTIFIERS, severity := .high,
      title := Tmsg.nestedQuantifiersTitle, message := Tmsg.nestedQuantifiersMsg,
      evidence := some ⟨some [⟨1, 6⟩], none⟩ }
    (by decide)

/-! ## Intent scorer (`intentmap.js`) -/

-- The intent label table of `intentmap.js`.
namespace INTENT_LABELS

def GENERAL : String := "General pattern"
def EMAIL_LIKE : String := "Email-like identifier"
def URL_LIKE : String := "URL-like string"
def UUID : String := "UUID / GUID"
def IPV4 : String := "IPv4 address"
def IPV6 : String := "IPv6 address"
def ISO_DATE : String := "ISO 8601 date"
def TIME_24H : String := "24-hour time"
def TIMESTAMP : String := "Timestamp (date + time)"
def SEMVER : String := "Semantic version (SemVer-like)"
def HEX : String := "Hex string"
def ALPHANUM_ID : String := "Alphanumeric identifier"
def LOG_LEVEL : String := "Log level token (INFO/WARN/ERROR...)"
def FILE_PATH : String := "File path (basic)"
def PHONE_LIKE : String := "Phone-like number (basic)"

end INTENT_LABELS

/-- The feature vector built by `extractFeatures`. -/
structure Features where
  hasStartAnchor : Bool
  hasEndAnchor : Bool
  hasWordBoundary : Bool
  hasAlternation : Bool
  groupCount : Nat
  namedGroupCount : Nat
  hasLookaround : Bool
  usesAtSign : Bool
  usesColon : Bool
  usesSlash : Bool
  usesDotLiteral : Bool
  usesHyphenLiteral : Bool
  usesUnderscoreLiteral : Bool
  usesPlusLiteral : Bool
  usesQuestionLiteral : Bool
  usesDigitClass : Bool
  usesHexClass : Bool
  usesBraceQuantifier : Bool
  containsExactCounts : List Nat
  containsUUIDHyphenPattern : Bool
  containsSemverDots : Bool
  containsIPv4DotStructure : Bool
  containsIPv6ColonStructure : Bool
  usesUnicodeProps : Bool
deriving DecidableEq

/-- The all-zero feature record the extractor starts from. -/
def baseFeatures : Features :=
  ⟨false, false, false, false, 0, 0, false, false, false, false, false, false,
   false, false, false, false, false, false, [], false, false, false, false, false⟩

/-- The outcomes of the three `rawPattern.match(...)` shape probes of
`extractFeatures` (UUID hyphen chunks, SemVer dots, IPv4 dot structure),
supplied as an oracle: they are regex-engine calls on the pattern's raw
text, and every property proved below holds for all of their outcomes. -/
structure RawHints where
  uuid : Bool
  semver : Bool
  ipv4 : Bool
deriving DecidableEq

/-- The capturing group's `name` field (`null`, here `none`, when the group
is unnamed; other nodes have no such string field). -/
def RNode.gnameOf : RNode → Option String
  | .capturingGroup _ _ _ nm _ _ => nm
  | _ => none

/-- `n.parent?.type === "AlternationExpression"` for a node whose parent is
`pt` (`none` at the walk's root). -/
def parentIsAltExpr (pt : Option RNode) : Bool :=
  match pt with
  | none => false
  | some p => p.typeStr == "AlternationExpression"

/-- One visitor step of `extractFeatures`' walk over `(parent, node)`. -/
def featStep (f : Features) (x : Option RNode × RNode) : Features :=
  let pt := x.1
  let n := x.2
  let raw := n.rawOf
  let q := redundantQuantSource n
  { f with
    hasStartAnchor := f.hasStartAnchor
      || (n.typeStr == "Assertion" && n.kindOf == some "start"),
    hasEndAnchor := f.hasEndAnchor
      || (n.typeStr == "Assertion" && n.kindOf == some "end"),
    hasWordBoundary := f.hasWordBoundary
      || (n.typeStr == "Assertion" && n.kindOf == some "wordBoundary"),
    hasLookaround := f.hasLookaround
      || (n.typeStr == "Assertion"
          && (n.kindOf == some "lookahead" || n.kindOf == some "lookbehind")),
    hasAlternation := f.hasAlternation
      || ((n.typeStr == "Alternative" && parentIsAltExpr pt)
          || n.typeStr == "AlternationExpression"),
    groupCount := f.groupCount + (if n.typeStr == "CapturingGroup" then 1 else 0),
    namedGroupCount := f.namedGroupCount
      + (if n.typeStr == "CapturingGroup"
            && (match n.gnameOf with | some s => s != "" | none => false)
         then 1 else 0),
    usesAtSign := f.usesAtSign || (raw != "" && strContains raw "@"),
    usesColon := f.usesColon || (raw != "" && strContains raw ":"),
    usesSlash := f.usesSlash || (raw != "" && strContains raw "/"),
    usesDotLiteral := f.usesDotLiteral || (raw != "" && strContains raw "\\."),
    usesHyphenLiteral := f.usesHyphenLiteral || (raw != "" && strContains raw "-"),
    usesUnderscoreLiteral := f.usesUnderscoreLiteral
      || (raw != "" && strContains raw "_"),
    usesPlusLiteral := f.usesPlusLiteral || (raw != "" && strContains raw "+"),
    usesQuestionLiteral := f.usesQuestionLiteral || (raw != "" && strContains raw "?"),
    usesUnicodeProps := f.usesUnicodeProps
      || (raw != ""
          && (strContains raw "\\p\x7b" || strContains raw "\\P\x7b")),
    usesDigitClass := f.usesDigitClass || raw == "\\d" || strContains raw "\\d"
      || strContains raw "[0-9]",
    usesHexClass := f.usesHexClass || strContains raw "[0-9a-fA-F]"
      || strContains raw "\\p\x7bHex_Digit\x7d",
    usesBraceQuantifier := f.usesBraceQuantifier
      || (match q with
          | some qq => (match qq.quantData with
              | some _ => true
              | none => false)
          | none => false),
    containsExactCounts := f.containsExactCounts
      ++ (match q with
          | some qq => (match qq.quantData with
              | some (mn, .fin m, _) => if mn == m then [mn] else []
              | _ => [])
          | none => []) }

/-- `(rawPattern.match(/:/g) || []).length`: the number of colons. -/
def countColon (s : String) : Nat :=
  s.data.countP (fun c => c == ':')

/-- The raw-pattern structure-hint block of `extractFeatures` (skipped when
`rawPattern` is falsy). -/
def applyRawHints (hints : RawHints) (rawPattern : String) (f : Features) : Features :=
  if rawPattern != "" then
    { f with
      containsUUIDHyphenPattern := hints.uuid,
      containsSemverDots := hints.semver,
      containsIPv4DotStructure := strContains rawPattern "\\." && hints.ipv4,
      containsIPv6ColonStructure := decide (countColon rawPattern ≥ 2) }
  else f

/-- `extractFeatures` of `intentmap.js`: one guarded walk of the tree, then
the raw-pattern shape hints. -/
def extractFeatures (hints : RawHints) (ast : RNode) : Features :=
  applyRawHints hints ast.rawOf ((walkWPN none ast).foldl featStep baseFeatures)

/-- A scored intent candidate. -/
structure Cand where
  label : String
  score : Int
  rationale : List String
deriving DecidableEq

/-- The read of `f.usesWordBoundary` in the email-like scorer: the
extractor sets `hasWordBoundary`, never a `usesWordBoundary` field, so the
read yields `undefined` (falsy) on every feature record. -/
def usesWordBoundaryRead (_f : Features) : Bool := false

/-- The email-like candidate block of `scoreCandidates`. -/
def emailCand (f : Features) : Cand :=
  let s1 : Int := if f.usesAtSign then 0 + 45 else 0
  let r1 : List String := if f.usesAtSign then ["Contains \x27@\x27"] else []
  let s2 := if f.usesDotLiteral then s1 + 15 else s1
  let r2 := if f.usesDotLiteral then r1 ++ ["Uses \x27.\x27 (likely domain separator)"] else r1
  let s3 := if f.hasStartAnchor && f.hasEndAnchor then s2 + 10 else s2
  let r3 := if f.hasStartAnchor && f.hasEndAnchor then r2 ++ ["Anchored to whole string"] else r2
  let s4 := if usesWordBoundaryRead f then s3 + 5 else s3
  let r4 := if usesWordBoundaryRead f then r3 ++ ["Uses word boundary"] else r3
  let s5 := if f.hasAlternation then s4 - 5 else s4
  let r5 := if f.hasAlternation then r4 ++ ["Alternation reduces certainty"] else r4
  ⟨INTENT_LABELS.EMAIL_LIKE, s5, r5⟩

/-- The URL-like candidate block. -/
def urlCand (f : Features) (fl : Flags) : Cand :=
  let s1 : Int := if f.usesSlash then 0 + 25 else 0
  let r1 : List String := if f.usesSlash then ["Contains \x27/\x27"] else []
  let s2 := if f.usesColon then s1 + 25 else s1
  let r2 := if f.usesColon then r1 ++ ["Contains \x27:\x27 (likely scheme/port)"] else r1
  let s3 := if f.usesDotLiteral then s2 + 10 else s2
  let r3 := if f.usesDotLiteral then r2 ++ ["Uses \x27.\x27 (likely host/domain)"] else r2
  let s4 := if f.hasStartAnchor then s3 + 5 else s3
  let r4 := if f.hasStartAnchor then r3 ++ ["Has start anchor"] else r3
  let s5 := if fl.i then s4 + 3 else s4
  let r5 := if fl.i then r4 ++ ["Case-insensitive flag often used for URLs"] else r4
  ⟨INTENT_LABELS.URL_LIKE, s5, r5⟩

/-- The UUID candidate block. -/
def uuidCand (f : Features) : Cand :=
  let s1 : Int := if f.containsUUIDHyphenPattern then 0 + 70 else 0
  let r1 : List String :=
    if f.containsUUIDHyphenPattern then ["Matches UUID hyphen chunk structure"] else []
  let s2 := if f.usesHexClass then s1 + 20 else s1
  let r2 := if f.usesHexClass then r1 ++ ["Uses hex character class"] else r1
  let hit := f.containsExactCounts.contains 8 && f.containsExactCounts.contains 12
  let s3 := if hit then s2 + 10 else s2
  let r3 := if hit then r2 ++ ["Has exact chunk lengths common to UUIDs"] else r2
  ⟨INTENT_LABELS.UUID, s3, r3⟩

/-- The IPv4 candidate block. -/
def ipv4Cand (f : Features) : Cand :=
  let s1 : Int := if f.containsIPv4DotStructure then 0 + 60 else 0
  let r1 : List String :=
    if f.containsIPv4DotStructure then ["Has repeated dot-separated numeric structure"] else []
  let s2 := if f.usesDigitClass then s1 + 10 else s1
  let r2 := if f.usesDigitClass then r1 ++ ["Uses digit class"] else r1
  let s3 := if f.usesBraceQuantifier then s2 + 5 else s2
  let r3 := if f.usesBraceQuantifier then r2 ++ ["Uses numeric length quantifiers"] else r2
  ⟨INTENT_LABELS.IPV4, s3, r3⟩

/-- The IPv6 candidate block. -/
def ipv6Cand (f : Features) : Cand :=
  let s1 : Int := if f.containsIPv6ColonStructure then 0 + 55 else 0
  let r1 : List String :=
    if f.containsIPv6ColonStructure then ["Contains multiple \x27:\x27 separators"] else []
  let s2 := if f.usesHexClass then s1 + 15 else s1
  let r2 := if f.usesHexClass then r1 ++ ["Uses hex character class"] else r1
  ⟨INTENT_LABELS.IPV6, s2, r2⟩

/-- The ISO-date candidate block. -/
def isoDateCand (f : Features) : Cand :=
  let s1 : Int := if f.usesDigitClass then 0 + 15 else 0
  let r1 : List String := if f.usesDigitClass then ["Uses digit class"] else []
  let s2 := if f.usesHyphenLiteral then s1 + 20 else s1
  let r2 := if f.usesHyphenLiteral then r1 ++ ["Uses \x27-\x27 separators"] else r1
  let hit := f.containsExactCounts.contains 4 && f.containsExactCounts.contains 2
  let s3 := if hit then s2 + 25 else s2
  let r3 := if hit then r2 ++ ["Uses 4 and 2 digit chunk lengths"] else r2
  let s4 := if f.hasStartAnchor && f.hasEndAnchor then s3 + 5 else s3
  let r4 := if f.hasStartAnchor && f.hasEndAnchor then r3 ++ ["Anchored to whole string"] else r3
  ⟨INTENT_LABELS.ISO_DATE, s4, r4⟩

/-- The 24-hour-time candidate block. -/
def time24Cand (f : Features) : Cand :=
  let s1 : Int := if f.usesColon then 0 + 30 else 0
  let r1 : List String := if f.usesColon then ["Uses \x27:\x27 separators"] else []
  let s2 := if f.containsExactCounts.contains 2 then s1 + 20 else s1
  let r2 := if f.containsExactCounts.contains 2 then r1 ++ ["Uses 2-digit chunks"] else r1
  let s3 := if f.usesDigitClass then s2 + 10 else s2
  let r3 := if f.usesDigitClass then r2 ++ ["Uses digit class"] else r2
  ⟨INTENT_LABELS.TIME_24H, s3, r3⟩

/-- The timestamp candidate block. -/
def timestampCand (f : Features) : Cand :=
  let s1 : Int := if f.usesHyphenLiteral then 0 + 15 else 0
  let r1 : List String :=
    if f.usesHyphenLiteral then ["Has \x27-\x27 separators (date-like)"] else []
  let s2 := if f.usesColon then s1 + 15 else s1
  let r2 := if f.usesColon then r1 ++ ["Has \x27:\x27 separators (time-like)"] else r1
  let hit := f.containsExactCounts.contains 4 && f.containsExactCounts.contains 2
  let s3 := if hit then s2 + 10 else s2
  let r3 := if hit then r2 ++ ["Has common date/time chunk lengths"] else r2
  ⟨INTENT_LABELS.TIMESTAMP, s3, r3⟩

/-- The SemVer candidate block. -/
def semverCand (f : Features) : Cand :=
  let s1 : Int := if f.containsSemverDots then 0 + 65 else 0
  let r1 : List String :=
    if f.containsSemverDots then ["Contains digit-dot-digit-dot-digit structure"] else []
  let s2 := if f.hasStartAnchor && f.hasEndAnchor then s1 + 5 else s1
  let r2 := if f.hasStartAnchor && f.hasEndAnchor then r1 ++ ["Anchored to whole string"] else r1
  ⟨INTENT_LABELS.SEMVER, s2, r2⟩

/-- The hex-string candidate block. -/
def hexCand (f : Features) : Cand :=
  let s1 : Int := if f.usesHexClass then 0 + 55 else 0
  let r1 : List String := if f.usesHexClass then ["Uses hex character class"] else []
  let s2 := if f.hasStartAnchor && f.hasEndAnchor then s1 + 5 else s1
  let r2 := if f.hasStartAnchor && f.hasEndAnchor then r1 ++ ["Anchored to whole string"] else r1
  let hit := f.containsExactCounts.contains 32 || f.containsExactCounts.contains 40
    || f.containsExactCounts.contains 64
  let s3 := if hit then s2 + 10 else s2
  let r3 := if hit then r2 ++ ["Uses common hex digest lengths (32/40/64)"] else r2
  ⟨INTENT_LABELS.HEX, s3, r3⟩

/-- The alphanumeric-identifier candidate block. -/
def alphanumCand (f : Features) : Cand :=
  let s1 : Int := if f.hasStartAnchor && f.hasEndAnchor then 0 + 15 else 0
  let r1 : List String :=
    if f.hasStartAnchor && f.hasEndAnchor then ["Anchored to whole string"] else []
  let s2 := if f.usesUnderscoreLiteral then s1 + 5 else s1
  let r2 := if f.usesUnderscoreLiteral then r1 ++ ["Allows \x27_\x27"] else r1
  let s3 := if f.usesBraceQuantifier then s2 + 10 else s2
  let r3 := if f.usesBraceQuantifier then r2 ++ ["Has explicit length bounds"] else r2
  let s4 := if f.hasWordBoundary then s3 + 5 else s3
  let r4 := if f.hasWordBoundary then r3 ++ ["Uses word boundary"] else r3
  ⟨INTENT_LABELS.ALPHANUM_ID, s4, r4⟩

/-- `astRawFallbackFromFeatures` of `intentmap.js`: the deliberate no-op
fallback, always `undefined`. -/
def astRawFallbackFromFeatures (_f : Features) : Option String := none

/-- A JS `\w` character (`[A-Za-z0-9_]`). -/
def isWordCh (c : Char) : Bool :=
  (c ≥ 'A' && c ≤ 'Z') || (c ≥ 'a' && c ≤ 'z') || (c ≥ '0' && c ≤ '9') || c == '_'

/-- The remaining characters after an initial segment, when it is one. -/
def afterPrefixL : List Char → List Char → Option (List Char)
  | [], cs => some cs
  | _ :: _, [] => none
  | p :: ps, c :: cs => if p == c then afterPrefixL ps cs else none

/-- The log-level token alternatives of the `\b(INFO|...)\b` probe. -/
def logLevelWords : List String :=
  ["INFO", "WARN", "WARNING", "ERROR", "DEBUG", "TRACE", "FATAL"]

/-- Whether one of the words matches at the head of `cs`, with `\b` checks
against the preceding character and the character after the word. -/
def logLevelHit (pre : Option Char) (cs : List Char) : Bool :=
  logLevelWords.any fun w =>
    match afterPrefixL w.data cs with
    | some rest =>
        (match pre with | none => true | some c => !isWordCh c)
          && (match rest with | [] => true | c :: _ => !isWordCh c)
    | none => false

/-- Search of `\b(INFO|WARN|WARNING|ERROR|DEBUG|TRACE|FATAL)\b` over a
character list, tracking the previous character. -/
def logLevelScan : Option Char → List Char → Bool
  | _, [] => false
  | pre, c :: cs => logLevelHit pre (c :: cs) || logLevelScan (some c) cs

/-- `raw.match(/\b(INFO|WARN|WARNING|ERROR|DEBUG|TRACE|FATAL)\b/)` as a
boolean test. -/
def logLevelTest (s : String) : Bool :=
  logLevelScan none s.data

/-- The log-level candidate block (its raw-text probe runs on
`astRawFallbackFromFeatures`, which always yields `undefined`). -/
def logLevelCand (f : Features) : Cand :=
  let s1 : Int := if f.hasAlternation then 0 + 15 else 0
  let r1 : List String := if f.hasAlternation then ["Uses alternation (token choices)"] else []
  let hit := match astRawFallbackFromFeatures f with
    | some raw => logLevelTest raw
    | none => false
  let s2 := if hit then s1 + 60 else s1
  let r2 := if hit then r1 ++ ["Contains common log level words"] else r1
  ⟨INTENT_LABELS.LOG_LEVEL, s2, r2⟩

/-- The phone-like candidate block. -/
def phoneCand (f : Features) : Cand :=
  let s1 : Int := if f.usesPlusLiteral then 0 + 10 else 0
  let r1 : List String := if f.usesPlusLiteral then ["Allows \x27+\x27 prefix"] else []
  let s2 := if f.usesDigitClass then s1 + 15 else s1
  let r2 := if f.usesDigitClass then r1 ++ ["Uses digit class"] else r1
  let s3 := if f.usesHyphenLiteral then s2 + 10 else s2
  let r3 := if f.usesHyphenLiteral then r2 ++ ["Allows \x27-\x27 separators"] else r2
  ⟨INTENT_LABELS.PHONE_LIKE, s3, r3⟩

/-- The file-path candidate block. -/
def filePathCand (f : Features) : Cand :=
  let s1 : Int := if f.usesSlash then 0 + 25 else 0
  let r1 : List String := if f.usesSlash then ["Contains \x27/\x27 separators"] else []
  let s2 := if f.usesDotLiteral then s1 + 5 else s1
  let r2 := if f.usesDotLiteral then r1 ++ ["Uses \x27.\x27 (extension-like)"] else r1
  ⟨INTENT_LABELS.FILE_PATH, s2, r2⟩

/-- `scoreCandidates` of `intentmap.js`, in declaration order. -/
def scoreCandidates (f : Features) (fl : Flags) : List Cand :=
  [emailCand f, urlCand f fl, uuidCand f, ipv4Cand f, ipv6Cand f, isoDateCand f,
   time24Cand f, timestampCand f, semverCand f, hexCand f, alphanumCand f,
   logLevelCand f, phoneCand f, filePathCand f]

/-- `clamp01` of `intentmap.js`. -/
def clamp01 (x : ℚ) : ℚ :=
  if x < 0 then 0 else if x > 1 then 1 else x

/-- `toConfidence` of `intentmap.js`:
`clamp01(Math.min(0.35 + (bestScore / 100) * 0.6, 0.9))`. -/
def toConfidence (bestScore : Int) : ℚ :=
  clamp01 (min (0.35 + (bestScore : ℚ) / 100 * 0.6) 0.9)

/-- The per-candidate clamp `Math.max(0, Math.min(100, c.score))` applied by
`inferIntent`'s `.map`. -/
def clampScore (c : Cand) : Cand :=
  { c with score := max 0 (min 100 c.score) }

/-- The head of the stable descending sort
`.sort((a, b) => b.score - a.score)`: the first candidate of maximal
score. -/
def pickBest : List Cand → Option Cand
  | [] => none
  | c :: cs =>
      match pickBest cs with
      | none => some c
      | some b => if b.score > c.score then some b else some c

/-- `INTENT_CONFIDENCE_THRESHOLD` of `intentmap.js`. -/
def INTENT_CONFIDENCE_THRESHOLD : ℚ := 0.6

/-- An inferred-intent result. -/
structure IntentResult where
  label : String
  confidence : ℚ
  rationale : List String
deriving DecidableEq

/-- The conservative fallback result of `inferIntent`
(`confidence: Math.min(0.55, confidence || 0.5)`; a JS number is falsy
exactly when it is `0`, NaN never arising here). -/
def generalFallback (confidence : ℚ) : IntentResult :=
  { label := INTENT_LABELS.GENERAL,
    confidence := min 0.55 (if confidence == 0 then 0.5 else confidence),
    rationale := ["No strong intent signals were detected."] }

/-- The named-label result branch of `inferIntent` (top-3 rationale
trimming with the generic filler). -/
def namedResult (b : Cand) (confidence : ℚ) : IntentResult :=
  let rationale := b.rationale.take 3
  let rationale :=
    if rationale.isEmpty then ["Matched common structural signals for this intent."]
    else rationale
  { label := b.label, confidence := confidence, rationale := rationale }

/-- `inferIntent` of `intentmap.js` (the three raw-text shape probes are
the `hints` oracle; see `RawHints`). -/
def inferIntent (hints : RawHints) (ast : RNode) (fl : Flags) : IntentResult :=
  let f := extractFeatures hints ast
  let cands := (scoreCandidates f fl).map clampScore
  let best := pickBest cands
  let bestScore := (best.map Cand.score).getD 0
  let confidence := toConfidence bestScore
  match best with
  | none => generalFallback confidence
  | some b =>
      if confidence < INTENT_CONFIDENCE_THRESHOLD then generalFallback confidence
      else namedResult b confidence

theorem typeStr_ne_altExpr (m : RNode) :
    (RNode.typeStr m == "AlternationExpression") = false := by
  cases m <;> rfl

theorem parentIsAltExpr_false (pt : Option RNode) : parentIsAltExpr pt = false := by
  cases pt with
  | none => rfl
  | some p => exact typeStr_ne_altExpr p

theorem featStep_hasAlternation (f : Features) (x : Option RNode × RNode) :
    (featStep f x).hasAlternation = f.hasAlternation := by
  obtain ⟨pt, n⟩ := x
  simp [featStep, parentIsAltExpr_false, typeStr_ne_altExpr]

theorem foldl_featStep_hasAlternation (l : List (Option RNode × RNode))
    (f0 : Features) : (l.foldl featStep f0).hasAlternation = f0.hasAlternation := by
  induction l generalizing f0 with
  | nil => rfl
  | cons x xs ih => simp [List.foldl_cons, ih, featStep_hasAlternation]

theorem applyRawHints_hasAlternation (hints : RawHints) (r : String)
    (f : Features) : (applyRawHints hints r f).hasAlternation = f.hasAlternation := by
  unfold applyRawHints
  split <;> rfl

theorem extractFeatures_hasAlternation (hints : RawHints) (ast : RNode) :
    (extractFeatures hints ast).hasAlternation = false := by
  unfold extractFeatures
  rw [applyRawHints_hasAlternation,
    foldl_featStep_hasAlternation (walkWPN none ast) baseFeatures]
  rfl

theorem toConfidence_lb {s : Int} (h0 : 0 ≤ s) : (0.35 : ℚ) ≤ toConfidence s := by
  have hs : (0 : ℚ) ≤ (s : ℚ) := by exact_mod_cast h0
  have hterm : (0 : ℚ) ≤ (s : ℚ) / 100 * 0.6 :=
    mul_nonneg (div_nonneg hs (by norm_num)) (by norm_num)
  have hmin : (0.35 : ℚ) ≤ min (0.35 + (s : ℚ) / 100 * 0.6) 0.9 := by
    apply le_min <;> linarith
  unfold toConfidence clamp01
  split_ifs with h1 h2 <;> linarith

theorem toConfidence_ub (s : Int) : toConfidence s ≤ 0.9 := by
  have hm : min (0.35 + (s : ℚ) / 100 * 0.6) 0.9 ≤ 0.9 := min_le_right _ _
  unfold toConfidence clamp01
  split_ifs with h1 h2 <;> linarith

theorem pickBest_mem : ∀ (l : List Cand) (c : Cand), pickBest l = some c → c ∈ l := by
  intro l
  induction l with
  | nil => intro c h; simp [pickBest] at h
  | cons a as ih =>
      intro c h
      unfold pickBest at h
      rcases hb : pickBest as with _ | b <;> simp only [hb] at h
      · injection h with h2
        subst h2
        exact List.mem_cons_self a as
      · by_cases hgt : b.score > a.score
        · rw [if_pos hgt] at h
          injection h with h2
          subst h2
          exact List.mem_cons_of_mem _ (ih _ hb)
        · rw [if_neg hgt] at h
          injection h with h2
          subst h2
          exact List.mem_cons_self a as

theorem clampScore_lb (c : Cand) : 0 ≤ (clampScore c).score :=
  le_max_left _ _

theorem clampScore_ub (c : Cand) : (clampScore c).score ≤ 100 :=
  max_le (by norm_num) (min_le_left _ _)

theorem emailCand_label (f : Features) :
    (emailCand f).label = INTENT_LABELS.EMAIL_LIKE := rfl
theorem urlCand_label (f : Features) (fl : Flags) :
    (urlCand f fl).label = INTENT_LABELS.URL_LIKE := rfl
theorem uuidCand_label (f : Features) :
    (uuidCand f).label = INTENT_LABELS.UUID := rfl
theorem ipv4Cand_label (f : Features) :
    (ipv4Cand f).label = INTENT_LABELS.IPV4 := rfl
theorem ipv6Cand_label (f : Features) :
    (ipv6Cand f).label = INTENT_LABELS.IPV6 := rfl
theorem isoDateCand_label (f : Features) :
    (isoDateCand f).label = INTENT_LABELS.ISO_DATE := rfl
theorem time24Cand_label (f : Features) :
    (time24Cand f).label = INTENT_LABELS.TIME_24H := rfl
theorem timestampCand_label (f : Features) :
    (timestampCand f).label = INTENT_LABELS.TIMESTAMP := rfl
theorem semverCand_label (f : Features) :
    (semverCand f).label = INTENT_LABELS.SEMVER := rfl
theorem hexCand_label (f : Features) :
    (hexCand f).label = INTENT_LABELS.HEX := rfl
theorem alphanumCand_label (f : Features) :
    (alphanumCand f).label = INTENT_LABELS.ALPHANUM_ID := rfl
theorem logLevelCand_label (f : Features) :
    (logLevelCand f).label = INTENT_LABELS.LOG_LEVEL := rfl
theorem phoneCand_label (f : Features) :
    (phoneCand f).label = INTENT_LABELS.PHONE_LIKE := rfl
theorem filePathCand_label (f : Features) :
    (filePathCand f).label = INTENT_LABELS.FILE_PATH := rfl

theorem scoreCandidates_label_ne_general {f : Features} {fl : Flags} {c : Cand}
    (h : c ∈ scoreCandidates f fl) : c.label ≠ INTENT_LABELS.GENERAL := by
  simp only [scoreCandidates, List.mem_cons, List.not_mem_nil, or_false] at h
  rcases h with rfl | rfl | rfl | rfl | rfl | rfl | rfl | rfl | rfl | rfl | rfl | rfl | rfl | rfl
  · rw [emailCand_label]; decide
  · rw [urlCand_label]; decide
  · rw [uuidCand_label]; decide
  · rw [ipv4Cand_label]; decide
  · rw [ipv6Cand_label]; decide
  · rw [isoDateCand_label]; decide
  · rw [time24Cand_label]; decide
  · rw [timestampCand_label]; decide
  · rw [semverCand_label]; decide
  · rw [hexCand_label]; decide
  · rw [alphanumCand_label]; decide
  · rw [logLevelCand_label]; decide
  · rw [phoneCand_label]; decide
  · rw [filePathCand_label]; decide

theorem generalFallback_label (c : ℚ) :
    (generalFallback c).label = INTENT_LABELS.GENERAL := rfl

theorem generalFallback_rationale (c : ℚ) :
    (generalFallback c).rationale = ["No strong intent signals were detected."] := rfl

theorem generalFallback_confidence_ub (c : ℚ) :
    (generalFallback c).confidence ≤ 0.55 :=
  min_le_left _ _

theorem generalFallback_confidence_lb {c : ℚ} (h : 0.35 ≤ c) :
    (0.35 : ℚ) ≤ (generalFallback c).confidence := by
  unfold generalFallback
  rcases hz : (c == 0) with _ | _
  · simp only [hz, Bool.false_eq_true, if_false]
    exact le_min (by norm_num) h
  · simp only [hz, if_true]
    norm_num

theorem namedResult_label (b : Cand) (c : ℚ) :
    (namedResult b c).label = b.label := rfl

theorem namedResult_confidence (b : Cand) (c : ℚ) :
    (namedResult b c).confidence = c := rfl

theorem namedResult_rationale_length (b : Cand) (c : ℚ) :
    1 ≤ (namedResult b c).rationale.length ∧ (namedResult b c).rationale.length ≤ 3 := by
  unfold namedResult
  rcases he : (b.rationale.take 3).isEmpty with _ | _
  · simp only [he, Bool.false_eq_true, if_false]
    have hne : ¬(b.rationale.take 3 = []) := by
      simpa [List.isEmpty_iff] using he
    have hpos : 0 < (b.rationale.take 3).length := List.length_pos.mpr hne
    have hle := List.length_take 3 b.rationale
    constructor
    · omega
    · rw [hle]; omega
  · simp only [he, if_true]
    simp

/-- C5.  The confidence `inferIntent` returns is at least 0.35, and at most
0.55 when the general fallback label is returned, at most 0.9 when a named
label is returned — for every tree, flag record, and outcome of the
raw-text shape probes. -/
theorem c5_intent_confidence_bounds (hints : RawHints) (ast : RNode) (fl : Flags) :
    0.35 ≤ (inferIntent hints ast fl).confidence ∧
      (inferIntent hints ast fl).confidence ≤
        (if (inferIntent hints ast fl).label = INTENT_LABELS.GENERAL
         then (0.55 : ℚ) else 0.9) := by
  unfold inferIntent
  rcases hb : pickBest ((scoreCandidates (extractFeatures hints ast) fl).map clampScore)
    with _ | b
  · simp only [hb]
    have h35 : (0.35 : ℚ)
        ≤ toConfidence ((Option.map Cand.score (none : Option Cand)).getD 0) :=
      toConfidence_lb (le_refl 0)
    refine ⟨generalFallback_confidence_lb h35, ?_⟩
    rw [if_pos (generalFallback_label _)]
    exact generalFallback_confidence_ub _
  · have hmem := pickBest_mem _ _ hb
    rcases List.mem_map.mp hmem with ⟨c0, hc0, rfl⟩
    have hlb := toConfidence_lb (clampScore_lb c0)
    have hub := toConfidence_ub (clampScore c0).score
    have hlabel : (clampScore c0).label ≠ INTENT_LABELS.GENERAL := by
      have h1 := scoreCandidates_label_ne_general hc0
      simpa [clampScore] using h1
    simp only [hb]
    rw [show (Option.map Cand.score (some (clampScore c0))).getD 0
          = (clampScore c0).score from rfl]
    by_cases hth : toConfidence (clampScore c0).score < INTENT_CONFIDENCE_THRESHOLD
    · rw [if_pos hth]
      refine ⟨generalFallback_confidence_lb hlb, ?_⟩
      rw [if_pos (generalFallback_label _)]
      exact generalFallback_confidence_ub _
    · rw [if_neg hth, namedResult_confidence,
        if_neg (by rw [namedResult_label]; exact hlabel)]
      exact ⟨hlb, hub⟩

/-- Claim-side predicate (C6): a start-anchor assertion node. -/
def isStartAnchorNode : RNode → Bool
  | .assertion _ _ _ .start _ _ => true
  | _ => false

/-- Claim-side predicate (C6): an end-anchor assertion node. -/
def isEndAnchorNode : RNode → Bool
  | .assertion _ _ _ .endk _ _ => true
  | _ => false

/-- Claim-side predicate (C6): a word-boundary assertion node (`\b`). -/
def isWordBoundaryNode : RNode → Bool
  | .assertion _ _ _ .word neg _ => !neg
  | _ => false

/-- Claim-side predicate (C6): alternation present (some node with at
least two alternative branches). -/
def specHasAlternation (t : RNode) : Bool :=
  (walkList t).any fun n => decide ((RNode.alternativesOf n).length ≥ 2)

/-- The email-like raw score as C6 states it, following the claim's words:
+45 for `@` in the tree's raw text, +15 for a literal (escaped) dot, +10
for both anchors, +5 for a word-boundary assertion, −5 for alternation. -/
def emailSpecScore (t : RNode) : Int :=
  (if strContains t.rawOf "@" then 45 else 0)
    + (if strContains t.rawOf "\\." then 15 else 0)
    + (if (walkList t).any isStartAnchorNode && (walkList t).any isEndAnchorNode
       then 10 else 0)
    + (if (walkList t).any isWordBoundaryNode then 5 else 0)
    + (if specHasAlternation t then -5 else 0)

/-- The regexpp tree of the pattern `@\b` (a literal `@` followed by a
word-boundary assertion; offsets into the literal). -/
def treeAtWordBoundary : RNode :=
  .pattern "@\\b" 1 4
    [.alternative "@\\b" 1 4
      [.character "@" 1 2 64, .assertion "\\b" 2 4 .word false []]]

/-- C6 counterexample.  On the tree of `@\b` the claimed per-signal sum is
50 (45 for the `@` plus 5 for the word-boundary assertion), but the code's
email-like candidate scores 45: the +5 term reads the misspelled feature
field `usesWordBoundary`, which the extractor never sets. -/
theorem c6_counterexample :
    (emailCand (extractFeatures ⟨false, false, false⟩ treeAtWordBoundary)).score = 45
      ∧ emailSpecScore treeAtWordBoundary = 50 := by
  decide

/-- C6 amended.  The email-like candidate's raw score is exactly
45·[usesAtSign] + 15·[usesDotLiteral] + 10·[fully anchored]: the documented
+5 word-boundary delta never applies (the scorer reads `f.usesWordBoundary`,
a field the extractor never sets — it sets `hasWordBoundary`), and the −5
alternation delta never applies (the extractor recognises alternation only
through an `AlternationExpression` node type that regexpp never
produces). -/
theorem c6_email_score_amended (hints : RawHints) (ast : RNode) :
    (emailCand (extractFeatures hints ast)).score
      = (if (extractFeatures hints ast).usesAtSign then 45 else 0)
        + (if (extractFeatures hints ast).usesDotLiteral then 15 else 0)
        + (if (extractFeatures hints ast).hasStartAnchor
              && (extractFeatures hints ast).hasEndAnchor then 10 else 0) := by
  have halt := extractFeatures_hasAlternation hints ast
  simp only [emailCand, usesWordBoundaryRead, halt, Bool.false_eq_true, if_false]
  split_ifs <;> omega

/-- C10.  `inferIntent` always returns between one and three rationale
strings, and on the fallback path exactly the fixed no-signal rationale. -/
theorem c10_rationale_shape (hints : RawHints) (ast : RNode) (fl : Flags) :
    1 ≤ (inferIntent hints ast fl).rationale.length ∧
      (inferIntent hints ast fl).rationale.length ≤ 3 ∧
      ((inferIntent hints ast fl).label ≠ INTENT_LABELS.GENERAL ∨
        (inferIntent hints ast fl).rationale
          = ["No strong intent signals were detected."]) := by
  unfold inferIntent
  rcases hb : pickBest ((scoreCandidates (extractFeatures hints ast) fl).map clampScore)
    with _ | b
  · simp only [hb]
    rw [generalFallback_rationale]
    exact ⟨by norm_num, by norm_num, Or.inr rfl⟩
  · have hmem := pickBest_mem _ _ hb
    rcases List.mem_map.mp hmem with ⟨c0, hc0, rfl⟩
    have hlabel : (clampScore c0).label ≠ INTENT_LABELS.GENERAL := by
      have h1 := scoreCandidates_label_ne_general hc0
      simpa [clampScore] using h1
    simp only [hb]
    rw [show (Option.map Cand.score (some (clampScore c0))).getD 0
          = (clampScore c0).score from rfl]
    by_cases hth : toConfidence (clampScore c0).score < INTENT_CONFIDENCE_THRESHOLD
    · rw [if_pos hth, generalFallback_rationale]
      exact ⟨by norm_num, by norm_num, Or.inr rfl⟩
    · rw [if_neg hth]
      obtain ⟨h1, h3⟩ := namedResult_rationale_length (clampScore c0)
        (toConfidence (clampScore c0).score)
      refine ⟨h1, h3, Or.inl ?_⟩
      rw [namedResult_label]
      exact hlabel

/-! ## Explanation generator (`explain.js`) -/

/-- The `value` field of a `Character` node (`undefined` elsewhere). -/
def RNode.valueOf : RNode → Option Nat
  | .character _ _ _ v => some v
  | _ => none

/-- A code point rendered as lower-case hex (`val.toString(16)`). -/
def hexString (n : Nat) : String :=
  String.mk (Nat.toDigits 16 n)

/-- The control-character escape substitution of `formatChar`. -/
def escSingle (c : Char) : String :=
  if c = '\n' then "\\n"
  else if c = '\x0d' then "\\r"
  else if c = '\t' then "\\t"
  else if c = '\x0c' then "\\f"
  else if c = '\x0b' then "\\v"
  else if c = '\x00' then "\\0"
  else String.mk [c]

/-- `formatChar` of `explain.js`.  `String.fromCodePoint` throws above
`0x10FFFF`, landing in the hex fallback.  A lone surrogate value (which JS
renders as an unpaired surrogate character) cannot inhabit a Lean string
and is rendered through the same hex form here; every branch is non-empty
either way. -/
def formatChar : Option Nat → String
  | none => ""
  | some val =>
      if val < 1114112 && !(55296 ≤ val && val ≤ 57343) then escSingle (Char.ofNat val)
      else "(0x" ++ hexString val ++ ")"

/-- `summarizeGroup` of `explain.js` (shallow, non-recursive). -/
def summarizeGroup (node : RNode) : String :=
  let alts := RNode.alternativesOf node
  if alts.isEmpty then "nothing"
  else
    match alts.head? with
    | none => "pattern"
    | some alt =>
        match RNode.elementsOf alt with
        | [] => "pattern"
        | [e] =>
            if e.typeStr == "Character" then "literal"
            else if e.typeStr == "CharacterSet" then "character set"
            else if e.typeStr == "Group" then "group"
            else "pattern"
        | _ => "sequence"

/-- `${node.value || node.key}` of the property-set descriptions. -/
def propLabel (key : String) (pvalue : Option String) : String :=
  match pvalue with
  | some v => if v != "" then v else key
  | none => key

/-- `describeAssertion` of `explain.js`.  Its switch cases `non-word`,
`negative-lookahead` and `negative-lookbehind` are dead: regexpp expresses
negation through the `negate` flag on kinds `word`/`lookahead`/`lookbehind`,
so a negative lookaround is described with the positive wording. -/
def describeAssertion (node : RNode) : String :=
  match node with
  | .assertion _ _ _ .start _ _ => "Start of string/line anchor"
  | .assertion _ _ _ .endk _ _ => "End of string/line anchor"
  | .assertion _ _ _ .word _ _ => "Word boundary"
  | .assertion r s e .lookahead neg alts =>
      "Positive lookahead (needs "
        ++ summarizeGroup (.assertion r s e .lookahead neg alts) ++ " to follow)"
  | .assertion r s e .lookbehind neg alts =>
      "Positive lookbehind (needs "
        ++ summarizeGroup (.assertion r s e .lookbehind neg alts) ++ " to precede)"
  | n => "Assertion (" ++ (n.kindOf.getD "undefined") ++ ")"

/-- `describeCharacterSet` of `explain.js`. -/
def describeCharacterSet (node : RNode) : String :=
  match node with
  | .characterSet _ _ _ k neg =>
      if neg then
        match k with
        | .digit => "Any non-digit"
        | .word => "Any non-word character"
        | .space => "Any non-whitespace"
        | .property key pv => "Any character NOT in Unicode property " ++ propLabel key pv
        | .any => "Inverted character set"
      else
        match k with
        | .digit => "Any digit (0-9)"
        | .word => "Any word character (a-z, A-Z, 0-9, _)"
        | .space => "Any whitespace (space, tab, newline)"
        | .any => "Any character (except newline unless \x27s\x27 flag)"
        | .property key pv => "Character with Unicode property " ++ propLabel key pv
  | _ => "Character set"

/-- `describeCharacterClass` of `explain.js`. -/
def describeCharacterClass (node : RNode) : String :=
  match node with
  | .characterClass _ _ _ neg els =>
      let parts := els.filterMap fun el =>
        if el.typeStr == "Character" then some (formatChar el.valueOf)
        else if el.typeStr == "CharacterClassRange" then
          match el with
          | .classRange _ _ _ lo hi =>
              some (formatChar lo.valueOf ++ "-" ++ formatChar hi.valueOf)
          | _ => none
        else if el.typeStr == "CharacterSet" then some (describeCharacterSet el)
        else none
      let content := String.intercalate ", " parts
      if neg then "Any character EXCEPT: [" ++ content ++ "]"
      else "One of the characters: [" ++ content ++ "]"
  | _ => "One of the characters: []"

/-- `describeBackreference` of `explain.js` (`node.ref` is regexpp's field;
a numeric `0` would be falsy, rendering `#?`). -/
def describeBackreference (node : RNode) : String :=
  match node with
  | .backreference _ _ _ (.name s) =>
      "Backreference: matches the same text as Capturing Group \x27" ++ s ++ "\x27"
  | .backreference _ _ _ (.num n) =>
      "Backreference: matches the same text as Capturing Group #"
        ++ (if n == 0 then "?" else toString n)
  | _ => "Backreference: matches the same text as Capturing Group #?"

/-- The range wording of `describeQuantifier` (`max` is `Infinity` for the
open-ended quantifiers; the `max === null` arm of `isUnlimited` is the
dead one). -/
def quantRange (mn : Nat) (mx : JNum) : String :=
  if mn == 0 && mx == JNum.fin 1 then "optionally (0 or 1 time)"
  else if mn == 0 && mx == JNum.inf then "zero or more times"
  else if mn == 1 && mx == JNum.inf then "one or more times"
  else if mx == JNum.fin mn then
    "exactly " ++ toString mn ++ " time" ++ (if mn == 1 then "" else "s")
  else
    "between " ++ toString mn ++ " and "
      ++ (match mx with | .inf => "unlimited" | .fin m => toString m) ++ " times"

/-- `greedy === false ? " (lazy)" : ""`. -/
def greedyLab (g : Bool) : String :=
  if g == false then " (lazy)" else ""

/-- `node.name ? `\x27name\x27` : `#${node.number || \x27?\x27}``. -/
def groupId (nm : Option String) (num : Nat) : String :=
  match nm with
  | some s =>
      if s != "" then "\x27" ++ s ++ "\x27"
      else "#" ++ (if num == 0 then "?" else toString num)
  | none => "#" ++ (if num == 0 then "?" else toString num)

/-- The content-list truncation of `describeGroup` (first 3 plus ellipsis). -/
def contentStrOf (content : List String) : String :=
  if content.length > 0 then
    if content.length > 3 then String.intercalate ", " (content.take 3) ++ ", ..."
    else String.intercalate ", " content
  else "empty"

theorem elementsOf_sizeOf_lt (a : RNode) : sizeOf (RNode.elementsOf a) < 1 + sizeOf a := by
  cases a <;> simp [RNode.elementsOf] <;> omega

mutual
/-- `describeNode` of `explain.js` (the switch on `node.type`; `Pattern`,
`Alternative` and `CharacterClassRange` fall to the default arm). -/
def describeNode : RNode → String
  | .assertion r s e k neg alts => describeAssertion (.assertion r s e k neg alts)
  | .quantifier _ _ _ mn mx g el =>
      describeNode el ++ (" — matches " ++ quantRange mn mx ++ greedyLab g)
  | .character r s e v => "Literal \"" ++ formatChar (RNode.valueOf (.character r s e v)) ++ "\""
  | .characterSet r s e k neg => describeCharacterSet (.characterSet r s e k neg)
  | .characterClass r s e neg els => describeCharacterClass (.characterClass r s e neg els)
  | .group _ _ _ alts =>
      "Non-capturing group: matches " ++ contentStrOf (analyzeAlternatives alts)
  | .capturingGroup _ _ _ nm num alts =>
      "Capturing Group " ++ groupId nm num ++ ": matches "
        ++ contentStrOf (analyzeAlternatives alts)
  | .backreference r s e rf => describeBackreference (.backreference r s e rf)
  | n => "Unknown component (" ++ RNode.typeStr n ++ ")"
termination_by n => 2 * sizeOf n

/-- `analyzeAlternatives` of `explain.js`. -/
def analyzeAlternatives : List RNode → List String
  | [] => ["Empty pattern"]
  | [a] => describeElements (RNode.elementsOf a)
  | a :: b :: rest =>
      ("Matches one of " ++ toString (a :: b :: rest).length ++ " alternatives:")
        :: altLines 1 (a :: b :: rest)
termination_by l => 2 * sizeOf l + 1
decreasing_by
  all_goals simp_wf
  all_goals (have h := elementsOf_sizeOf_lt a; omega)

/-- The numbered per-alternative lines of `analyzeAlternatives`
(`  ${idx + 1}. ${text || "Empty string"}`). -/
def altLines : Nat → List RNode → List String
  | _, [] => []
  | i, a :: rest =>
      (let text := String.intercalate ", " (describeElements (RNode.elementsOf a))
       "  " ++ toString i ++ ". " ++ (if text == "" then "Empty string" else text))
        :: altLines (i + 1) rest
termination_by i l => 2 * sizeOf l
decreasing_by
  all_goals simp_wf
  all_goals (have h := elementsOf_sizeOf_lt a; omega)

/-- `describeElements` of `explain.js` (a description is pushed only when
truthy). -/
def describeElements : List RNode → List String
  | els => if els.isEmpty then [] else elsFilter els
termination_by l => 2 * sizeOf l + 1

/-- The `forEach`-with-push body of `describeElements`. -/
def elsFilter : List RNode → List String
  | [] => []
  | e :: es => (let d := describeNode e; if d != "" then [d] else []) ++ elsFilter es
termination_by l => 2 * sizeOf l
end

/-- `analyzeConstraints` of `explain.js`. -/
def analyzeConstraints (ast : RNode) (flags : String) : List String :=
  let f := flags
  let flagLines :=
    (if strContains f "g" then ["Global: matches all occurrences, not just the first."] else [])
      ++ (if strContains f "i" then ["Case-insensitive: ignores case differences."] else [])
      ++ (if strContains f "m" then ["Multi-line: ^ and $ match start/end of lines."] else [])
      ++ (if strContains f "s" then ["Dot-all: . matches newlines."] else [])
      ++ (if strContains f "u" then ["Unicode: treats pattern as a sequence of code points."] else [])
      ++ (if strContains f "y" then ["Sticky: matches only from the last index."] else [])
  let firstAlt : Option RNode :=
    if ast.typeStr == "Pattern" then (RNode.alternativesOf ast).head? else none
  let anchorLines :=
    match firstAlt with
    | none => []
    | some fa =>
        let els := RNode.elementsOf fa
        if fa.hasElementsField && !els.isEmpty then
          match els.head?, els.getLast? with
          | some first, some last =>
              let isStart := first.typeStr == "Assertion" && first.kindOf == some "start"
              let isEnd := last.typeStr == "Assertion" && last.kindOf == some "end"
              if isStart && isEnd then ["Anchored: needs a full string (or line) match."]
              else if isStart then ["Start-anchored: must match from the start."]
              else if isEnd then ["End-anchored: must match at the end."]
              else []
          | _, _ => []
        else []
  flagLines ++ anchorLines

/-- `ast.type === "Pattern" ? ast.alternatives : [ast]`. -/
def rootAlternatives (ast : RNode) : List RNode :=
  if ast.typeStr == "Pattern" then ast.alternativesOf else [ast]

/-- `generateSummary` of `explain.js`. -/
def generateSummary (alts : List RNode) (flags : String) : List String :=
  (if alts.length > 1 then
    ["Matches any one of " ++ toString alts.length ++ " alternative patterns."]
   else ["Matches a specific sequence of characters."])
    ++ (if strContains flags "i" then ["The match is case-insensitive."] else [])
    ++ (if strContains flags "g" then ["Finds all matches in the text (Global)."] else [])

/-- The explanation record `{summary, components, constraints}`. -/
structure Explanation where
  summary : List String
  components : List String
  constraints : List String
deriving DecidableEq

/-- `explainPattern` of `explain.js`, on a parsed (non-null) tree. -/
def explainPattern (ast : RNode) (flags : String) : Explanation :=
  let constraints := analyzeConstraints ast flags
  let rootAlts := rootAlternatives ast
  let components := analyzeAlternatives rootAlts
  let summary := generateSummary rootAlts flags
  ⟨summary, components, constraints⟩

theorem length_pos_of_ne_empty {s : String} (h : s ≠ "") : 0 < s.length := by
  by_contra hc
  push_neg at hc
  have hd : s.data = [] := List.length_eq_zero.mp (Nat.le_zero.mp hc)
  exact h (String.ext (by rw [hd]))

theorem ne_empty_of_length_pos {s : String} (h : 0 < s.length) : s ≠ "" := by
  intro he
  rw [he] at h
  simp at h

theorem strLength_append (a b : String) : (a ++ b).length = a.length + b.length := by
  show (a ++ b).data.length = a.data.length + b.data.length
  rw [String.data_append, List.length_append]

theorem append_ne_empty_left {a : String} (h : a ≠ "") (b : String) : a ++ b ≠ "" := by
  have ha := length_pos_of_ne_empty h
  apply ne_empty_of_length_pos
  rw [strLength_append]
  omega

theorem append_ne_empty_right (a : String) {b : String} (h : b ≠ "") : a ++ b ≠ "" := by
  have hb := length_pos_of_ne_empty h
  apply ne_empty_of_length_pos
  rw [strLength_append]
  omega

theorem describeNode_ne_empty (n : RNode) : describeNode n ≠ "" := by
  cases n with
  | pattern r s e alts =>
      simp only [describeNode]
      exact append_ne_empty_right _ (by decide)
  | alternative r s e els =>
      simp only [describeNode]
      exact append_ne_empty_right _ (by decide)
  | classRange r s e lo hi =>
      simp only [describeNode]
      exact append_ne_empty_right _ (by decide)
  | assertion r s e k neg alts =>
      simp only [describeNode]
      cases k <;> simp only [describeAssertion]
      all_goals first
        | decide
        | exact append_ne_empty_right _ (by decide)
  | quantifier r s e mn mx g el =>
      simp only [describeNode]
      exact append_ne_empty_right _
        (append_ne_empty_left (append_ne_empty_left (by decide) _) _)
  | character r s e v =>
      simp only [describeNode]
      exact append_ne_empty_right _ (by decide)
  | characterSet r s e k neg =>
      simp only [describeNode, describeCharacterSet]
      cases neg <;> simp only [Bool.false_eq_true, if_false, if_true]
        <;> cases k
        <;> first
          | decide
          | exact append_ne_empty_left (by decide) _
  | characterClass r s e neg els =>
      simp only [describeNode, describeCharacterClass]
      cases neg <;> simp only [Bool.false_eq_true, if_false, if_true]
        <;> exact append_ne_empty_right _ (by decide)
  | group r s e alts =>
      simp only [describeNode]
      exact append_ne_empty_left (by decide) _
  | capturingGroup r s e nm num alts =>
      simp only [describeNode]
      exact append_ne_empty_left (append_ne_empty_left (append_ne_empty_left (by decide) _) _) _
  | backreference r s e rf =>
      simp only [describeNode, describeBackreference]
      cases rf with
      | num k => exact append_ne_empty_left (by decide) _
      | name nm => exact append_ne_empty_right _ (by decide)

theorem elsFilter_cons_ne_nil (e : RNode) (es : List RNode) :
    elsFilter (e :: es) ≠ [] := by
  have hd := describeNode_ne_empty e
  have hb : (describeNode e != "") = true := by simpa [bne_iff_ne] using hd
  simp only [elsFilter, hb, if_true]
  simp

theorem describeElements_eq_nil_iff (els : List RNode) :
    (describeElements els = []) ↔ els = [] := by
  cases els with
  | nil => simp [describeElements]
  | cons e es =>
      simp only [describeElements, List.isEmpty_cons, Bool.false_eq_true, if_false]
      constructor
      · intro h
        exact absurd h (elsFilter_cons_ne_nil e es)
      · intro h
        simp at h

/-- The regexpp tree of the empty pattern `""` (`parseRegExpLiteral("//")`:
a `Pattern` node with one alternative that has zero elements). -/
def treeEmptyPattern : RNode :=
  .pattern "" 1 1 [.alternative "" 1 1 []]

/-- C7 counterexample.  On the parsed tree of the empty pattern — one
alternative with no elements — `explainPattern` returns an empty
components list, not `["Empty pattern"]`: the guard producing that
component fires only when the alternatives array itself is empty or
missing, which a parsed tree never exhibits. -/
theorem c7_counterexample :
    (explainPattern treeEmptyPattern "").components = [] := by
  show analyzeAlternatives (rootAlternatives treeEmptyPattern) = []
  have h : rootAlternatives treeEmptyPattern = [.alternative "" 1 1 []] := rfl
  rw [h]
  simp [analyzeAlternatives, describeElements, RNode.elementsOf]

/-- Whether the tree's top level is a single alternative with no elements
(the shape of the parsed empty pattern). -/
def rootSingleEmptyAlt (t : RNode) : Bool :=
  match rootAlternatives t with
  | [x] => (RNode.elementsOf x).isEmpty
  | _ => false

/-- C7 amended.  `explainPattern`'s components list is empty exactly when
the tree's top level is a single alternative with zero elements (the
parsed empty pattern's shape) — for every other parsed tree it is
non-empty — and the explicit `Empty pattern` component is produced only
for an empty (or missing) alternatives array, which no parsed tree has. -/
theorem c7_components_nonempty_amended (t : RNode) (fl : String) :
    ((explainPattern t fl).components = [] ↔ rootSingleEmptyAlt t = true)
      ∧ analyzeAlternatives [] = ["Empty pattern"] := by
  constructor
  · show (analyzeAlternatives (rootAlternatives t) = []) ↔ _
    unfold rootSingleEmptyAlt
    rcases h : rootAlternatives t with _ | ⟨x, _ | ⟨y, rest⟩⟩
    · simp [analyzeAlternatives]
    · simp only [analyzeAlternatives]
      rw [describeElements_eq_nil_iff]
      simp [List.isEmpty_iff]
    · simp [analyzeAlternatives]
  · simp [analyzeAlternatives]

/-! ## False-positive/negative estimator (`fpfn-rules.js`, the `fpfnrules`
module imported by `ui.js`).

`safeCompile(pattern, flagsStr.replace("g", ""))` and the compiled regex's
exception-catching `testMatch` are the JS engine: they are supplied as the
oracle `re : Option (String → Bool)` (`none` models a compile failure).
String perturbations act on code-point lists (JS indexes UTF-16 units; the
difference does not affect the properties proved here), and JS
`toUpperCase`/`toLowerCase` are modelled on their ASCII fragment.  The
embedded estimator additionally returns the number of `testMatch`
invocations it performed. -/

/-- A capture-group record (its `value` is the only field the estimator
reads). -/
structure CaptureGroup where
  value : String
deriving DecidableEq

/-- A match record (`matchText`, `line.number` and `groups` are the fields
the estimator reads). -/
structure MatchRecord where
  matchText : String
  lineNumber : Nat
  groups : List CaptureGroup
deriving DecidableEq

/-- An example case `{text, reason}`. -/
structure ExCase where
  text : String
  reason : String
deriving DecidableEq

/-- The estimator's work-guard record. -/
structure FpfnGuard where
  maxCandidates : Nat
  maxLineLen : Nat
  maxTotalWork : Nat
deriving DecidableEq

/-- The estimator's report. -/
structure FpfnReport where
  likelyFalsePositives : List ExCase
  likelyFalseNegatives : List ExCase
  notes : List String
deriving DecidableEq

/-- `FP_FN_LIMIT` of `fpfn-rules.js`. -/
def FP_FN_LIMIT : Nat := 6

/-- The `guard?.x ?? default` resolution of the estimator's limits. -/
def resolveGuard (guard : Option FpfnGuard) : FpfnGuard :=
  ⟨((guard.map FpfnGuard.maxCandidates).getD 250),
   ((guard.map FpfnGuard.maxLineLen).getD 500),
   ((guard.map FpfnGuard.maxTotalWork).getD 2000)⟩

/-- `sampleText.split(/\r?\n/)`: split on newlines, stripping one carriage
return before each. -/
def splitLines (s : String) : List String :=
  (s.splitOn "\n").map fun l =>
    if l.data.getLast? == some '\x0d' then ⟨l.data.dropLast⟩ else l

/-- The estimator's AST feature probe (`extractFpfnFeatures`).  Its JS walk
keeps no visited set and does not skip the `parent` field — on a
parent-linked regexpp tree it recurses without bound (see the object-graph
model below); this embedding gives its value over the tree-structural
fields. -/
structure FpfnFeatures where
  usesDigits : Bool
  usesWordChars : Bool
  allowsWhitespace : Bool
  hasDotLike : Bool
  hasHyphenLike : Bool
  hasColonLike : Bool
  isAnchored : Bool
deriving DecidableEq

/-- `extractFpfnFeatures` of `fpfn-rules.js`. -/
def extractFpfnFeatures (ast : RNode) : FpfnFeatures :=
  let ns := walkList ast
  let hasStart := ns.any fun n => n.typeStr == "Assertion" && n.kindOf == some "start"
  let hasEnd := ns.any fun n => n.typeStr == "Assertion" && n.kindOf == some "end"
  { usesDigits := ns.any fun n =>
      strContains n.rawOf "\\d" || strContains n.rawOf "[0-9]",
    usesWordChars := ns.any fun n => strContains n.rawOf "\\w",
    allowsWhitespace := ns.any fun n =>
      strContains n.rawOf "\\s" || strContains n.rawOf "[ \\t]",
    hasDotLike := ns.any fun n => strContains n.rawOf "\\.",
    hasHyphenLike := ns.any fun n => strContains n.rawOf "-",
    hasColonLike := ns.any fun n => strContains n.rawOf ":",
    isAnchored := hasStart && hasEnd }

/-- An ASCII letter test (`/[A-Za-z]/`). -/
def hasAsciiLetter (s : String) : Bool :=
  s.data.any fun c => (c ≥ 'A' && c ≤ 'Z') || (c ≥ 'a' && c ≤ 'z')

/-- JS `toUpperCase` on the ASCII fragment. -/
def upperStr (s : String) : String := ⟨s.data.map Char.toUpper⟩

/-- JS `toLowerCase` on the ASCII fragment. -/
def lowerStr (s : String) : String := ⟨s.data.map Char.toLower⟩

/-- `toggleCase` of `fpfn-rules.js`. -/
def toggleCase (s : String) : String :=
  ⟨s.data.map fun c => if c = c.toUpper then c.toLower else c.toUpper⟩

/-- `seed.slice(0, -1)`. -/
def dropLastStr (s : String) : String := ⟨s.data.dropLast⟩

/-- `seed.slice(-1)`. -/
def lastCharStr (s : String) : String := ⟨s.data.drop (s.data.length - 1)⟩

/-- Replacement of the first character satisfying `p` (the one-shot
`seed.replace(/class/, c)`). -/
def replaceFirstP (p : Char → Bool) (r : Char) (s : String) : String :=
  ⟨go s.data⟩
where
  go : List Char → List Char
    | [] => []
    | c :: cs => if p c then r :: cs else c :: go cs

/-- `uniqueLimited` of `fpfn-rules.js` (skip falsy and seen entries, stop
at the limit). -/
def uniqueLimitedGo (limit : Nat) : List String → List String → List String
  | [], out => out
  | s :: rest, out =>
      if s == "" then uniqueLimitedGo limit rest out
      else if out.contains s then uniqueLimitedGo limit rest out
      else
        let out := out ++ [s]
        if out.length ≥ limit then out else uniqueLimitedGo limit rest out

/-- `uniqueLimited(arr, limit)`. -/
def uniqueLimited (arr : List String) (limit : Nat) : List String :=
  uniqueLimitedGo limit arr []

/-- `generateShouldStillMatchVariants` of `fpfn-rules.js`. -/
def generateShouldStillMatchVariants (seed : String) (ast : RNode) : List String :=
  let F := extractFpfnFeatures ast
  let v :=
    (if F.allowsWhitespace then
      [" " ++ seed, seed ++ " ", seed.replace " " "  "] else [])
    ++ (if hasAsciiLetter seed then [upperStr seed, lowerStr seed, toggleCase seed] else [])
    ++ (if F.hasHyphenLike then [seed.replace "-" "_"] else [])
    ++ (if F.hasDotLike then [seed.replace "." "-"] else [])
    ++ (if F.hasColonLike then [seed.replace ":" "-"] else [])
    ++ (if seed.length ≥ 3 then [dropLastStr seed, seed ++ lastCharStr seed] else [])
  uniqueLimited v 8

/-- `generateShouldNotMatchButMightVariants` of `fpfn-rules.js`. -/
def generateShouldNotMatchButMightVariants (seed : String) (ast : RNode) : List String :=
  let F := extractFpfnFeatures ast
  let v :=
    [seed ++ " ", seed ++ "\t", seed ++ "✅"]
    ++ (if F.usesDigits then
        [replaceFirstP (fun c => c ≥ '0' && c ≤ '9') 'A' seed, seed ++ "A"] else [])
    ++ (if F.usesWordChars then
        [seed ++ "!",
         replaceFirstP (fun c => (c ≥ 'A' && c ≤ 'Z') || (c ≥ 'a' && c ≤ 'z')) '!' seed]
       else [])
    ++ (if F.hasDotLike then [seed.replace "." ".."] else [])
    ++ (if F.hasHyphenLike then [seed.replace "-" "--"] else [])
    ++ (if F.hasColonLike then [seed.replace ":" "::"] else [])
    ++ (if !F.isAnchored then ["xxx" ++ seed ++ "yyy", "\x7b" ++ seed ++ "\x7d"] else [])
  uniqueLimited v 10

/-- The seed `push` of `sampleSeedsFromMatches` (skip falsy, truncate to
300 characters). -/
def pushSeed (seeds : List String) (s : String) : List String :=
  if s == "" then seeds
  else seeds ++ [if s.length > 300 then ⟨s.data.take 300⟩ else s]

/-- The capture-group sub-loop of the seed extraction. -/
def groupSeeds (maxCandidates : Nat) : List CaptureGroup → List String → List String
  | [], seeds => seeds
  | g :: gs, seeds =>
      if seeds.length ≥ maxCandidates then seeds
      else
        let seeds := if g.value != "" && g.value.length ≥ 2 then pushSeed seeds g.value
          else seeds
        groupSeeds maxCandidates gs seeds

/-- The per-match seed loop. -/
def seedsFromMatches (maxCandidates : Nat) : List MatchRecord → List String → List String
  | [], seeds => seeds
  | m :: ms, seeds =>
      if seeds.length ≥ maxCandidates then seeds
      else
        let seeds := pushSeed seeds m.matchText
        let seeds := groupSeeds maxCandidates m.groups seeds
        seedsFromMatches maxCandidates ms seeds

/-- Order-preserving string de-duplication (`seen` set filter). -/
def dedupeStrsGo : List String → List String → List String
  | [], _ => []
  | s :: rest, seen =>
      if seen.contains s then dedupeStrsGo rest seen
      else s :: dedupeStrsGo rest (s :: seen)

/-- `sampleSeedsFromMatches` of `fpfn-rules.js` (unique seeds, hard cap
`min 40 maxCandidates`). -/
def sampleSeedsFromMatches (_sampleText : String) (ms : List MatchRecord)
    (maxCandidates : Nat) : List String :=
  (dedupeStrsGo (seedsFromMatches maxCandidates ms []) []).take
    (min 40 maxCandidates)

/-- One variant-testing inner loop (`for (const v of variants)`), shared by
the negative pass (`keepOnMatch = false`: a non-matching variant is
recorded) and the positive pass (`keepOnMatch = true`).  The state is the
collected list and the `work.used` counter; each `testMatch` call
increments the counter. -/
def variantLoop (test : String → Bool) (cap : Nat) (keepOnMatch : Bool)
    (reason : String) : List String → List ExCase × Nat → List ExCase × Nat
  | [], st => st
  | v :: vs, (out, work) =>
      if out.length ≥ FP_FN_LIMIT then (out, work)
      else if work ≥ cap then (out, work)
      else
        let m := test v
        let out := if m == keepOnMatch then out ++ [⟨v, reason⟩] else out
        variantLoop test cap keepOnMatch reason vs (out, work + 1)

/-- One seed loop (`for (const seed of negSeeds)`), breaking on the list
limit before generating variants and on the work cap after the inner
loop. -/
def seedLoop (test : String → Bool) (cap : Nat) (keepOnMatch : Bool)
    (reason : String) (variantsOf : String → List String) :
    List String → List ExCase × Nat → List ExCase × Nat
  | [], st => st
  | seed :: rest, st =>
      if st.1.length ≥ FP_FN_LIMIT then st
      else
        let st2 := variantLoop test cap keepOnMatch reason (variantsOf seed) st
        if st2.2 ≥ cap then st2
        else seedLoop test cap keepOnMatch reason variantsOf rest st2

/-- Order-preserving de-duplication of example cases by exact text. -/
def dedupeExGo : List ExCase → List String → List ExCase
  | [], _ => []
  | x :: xs, seen =>
      if seen.contains x.text then dedupeExGo xs seen
      else x :: dedupeExGo xs (x.text :: seen)

/-- `estimateFalsePosNeg` of `fpfn-rules.js`, instrumented with the total
number of `testMatch` invocations performed. -/
def estimateFalsePosNeg (ast : RNode) (re : Option (String → Bool))
    (sampleText : String) (ms : List MatchRecord)
    (guard : Option FpfnGuard) : FpfnReport × Nat :=
  let limits := resolveGuard guard
  match re with
  | none =>
      (⟨[], [],
        ["Cannot estimate false positives/negatives because the regex did not compile."]⟩,
       0)
  | some test =>
      -- `lines`, `matchedLines` and `unmatchedLines` are computed by the
      -- source and never read afterwards; the (dead) truncated line list:
      let _lines := ((splitLines sampleText).take 5000).map fun l =>
        if l.length > limits.maxLineLen then (⟨l.data.take limits.maxLineLen⟩ : String)
        else l
      if ms.length == 0 then
        (⟨[], [],
          ["No matches were found in the sample text, so the tool cannot infer likely false positives/negatives.",
           "Tip: paste a sample that includes at least one expected match."]⟩,
         0)
      else
        let negSeeds := sampleSeedsFromMatches sampleText ms limits.maxCandidates
        let stNeg := seedLoop test limits.maxTotalWork false
          "Small variation of a known match did not match (may be too strict)."
          (fun s => generateShouldStillMatchVariants s ast) negSeeds ([], 0)
        let stPos := seedLoop test limits.maxTotalWork true
          "A suspicious-looking variation still matched (may be too broad)."
          (fun s => generateShouldNotMatchButMightVariants s ast) negSeeds
          ([], stNeg.2)
        let notes :=
          ["These are heuristic examples based on your sample text. Treat them as likely cases, not proof."]
            ++ (if stPos.2 ≥ limits.maxTotalWork then
                ["Estimation was capped to avoid slowdowns."] else [])
        (⟨(dedupeExGo stPos.1 []).take FP_FN_LIMIT,
          (dedupeExGo stNeg.1 []).take FP_FN_LIMIT,
          notes⟩,
         stPos.2)

theorem variantLoop_work_le (test : String → Bool) (cap : Nat) (k : Bool)
    (reason : String) (vs : List String) (st : List ExCase × Nat)
    (h : st.2 ≤ cap) : (variantLoop test cap k reason vs st).2 ≤ cap := by
  induction vs generalizing st with
  | nil => simpa [variantLoop] using h
  | cons v rest ih =>
      obtain ⟨out, work⟩ := st
      simp only [variantLoop]
      split
      · exact h
      · split
        · exact h
        · rename_i hwork
          exact ih _ (by simp at hwork ⊢; omega)

theorem seedLoop_work_le (test : String → Bool) (cap : Nat) (k : Bool)
    (reason : String) (variantsOf : String → List String) (seeds : List String)
    (st : List ExCase × Nat) (h : st.2 ≤ cap) :
    (seedLoop test cap k reason variantsOf seeds st).2 ≤ cap := by
  induction seeds generalizing st with
  | nil => simpa [seedLoop] using h
  | cons seed rest ih =>
      simp only [seedLoop]
      split
      · exact h
      · have h2 := variantLoop_work_le test cap k reason (variantsOf seed) st h
        split
        · exact h2
        · exact ih _ h2

/-- C4.  On every call, the estimator's two example lists hold at most 6
entries each, and the number of perturbation-test invocations performed is
at most the configured `maxTotalWork` (default 2000) — for every tree,
engine oracle, sample, match list and guard. -/
theorem c4_estimator_caps (ast : RNode) (re : Option (String → Bool))
    (sampleText : String) (ms : List MatchRecord) (guard : Option FpfnGuard) :
    (estimateFalsePosNeg ast re sampleText ms guard).1.likelyFalsePositives.length ≤ 6
      ∧ (estimateFalsePosNeg ast re sampleText ms guard).1.likelyFalseNegatives.length ≤ 6
      ∧ (estimateFalsePosNeg ast re sampleText ms guard).2
          ≤ (resolveGuard guard).maxTotalWork := by
  unfold estimateFalsePosNeg
  rcases re with _ | test
  · simp
  · simp only
    split
    · simp
    · refine ⟨?_, ?_, ?_⟩
      · calc ((dedupeExGo _ []).take FP_FN_LIMIT).length ≤ FP_FN_LIMIT :=
              List.length_take_le _ _
          _ ≤ 6 := by norm_num [FP_FN_LIMIT]
      · calc ((dedupeExGo _ []).take FP_FN_LIMIT).length ≤ FP_FN_LIMIT :=
              List.length_take_le _ _
          _ ≤ 6 := by norm_num [FP_FN_LIMIT]
      · apply seedLoop_work_le
        apply seedLoop_work_le
        exact Nat.zero_le _

/-- C8.  With an empty match-record list the estimator returns normally —
whether or not the pattern compiled — with both example lists empty and at
least one note. -/
theorem c8_estimator_no_seed (ast : RNode) (re : Option (String → Bool))
    (sampleText : String) (guard : Option FpfnGuard) :
    (estimateFalsePosNeg ast re sampleText [] guard).1.likelyFalsePositives = []
      ∧ (estimateFalsePosNeg ast re sampleText [] guard).1.likelyFalseNegatives = []
      ∧ (estimateFalsePosNeg ast re sampleText [] guard).1.notes ≠ [] := by
  rcases re with _ | test <;> exact ⟨rfl, rfl, by simp [estimateFalsePosNeg]⟩

/-! ## Parser (`parse.js`)

`parsePattern` never consults the runtime matching engine: it escapes the
forward slashes of the body, builds the literal `/body/flags`, and hands it
to regexpp's `parseRegExpLiteral`.  The literal tokenization (pattern up to
the first unescaped slash outside a character class, the rest as flags,
flags drawn from `gimsuy` without repetition) is modelled below; the
pattern-grammar validation itself is left as the parameter `patternCheck`,
since the failing input is decided before it is ever consulted. -/

/-- `patternBody.replace(/\//g, "\\/")`: every `/` code point — already
escaped or not — becomes the two code points `\/`. -/
def escapeSlashes (body : String) : String :=
  ⟨body.data.flatMap fun c => if c = '/' then ['\\', '/'] else [c]⟩

/-- The literal `/${escaped}/${flagsStr}` handed to `parseRegExpLiteral`. -/
def buildLiteral (body flags : String) : String :=
  "/" ++ escapeSlashes body ++ "/" ++ flags

/-- regexpp's literal scan after the opening slash: a backslash escapes the
next character, brackets toggle character-class mode, and the first
unescaped slash outside a class closes the pattern, leaving the rest as the
flag text. -/
def scanLit : List Char → List Char → Bool → Option (List Char × List Char)
  | [], _, _ => none
  | ['\\'], _, _ => none
  | '\\' :: c :: rest, acc, inC => scanLit rest (acc ++ ['\\', c]) inC
  | '[' :: rest, acc, _ => scanLit rest (acc ++ ['[']) true
  | ']' :: rest, acc, _ => scanLit rest (acc ++ [']']) false
  | '/' :: rest, acc, false => some (acc, rest)
  | c :: rest, acc, inC => scanLit rest (acc ++ [c]) inC

/-- Split a regexp literal into pattern text and flag text. -/
def splitLiteral (lit : String) : Option (List Char × List Char) :=
  match lit.data with
  | '/' :: rest => scanLit rest [] false
  | _ => none

/-- The flag characters regexpp accepts. -/
def validFlagChars : List Char := ['g', 'i', 'm', 's', 'u', 'y']

/-- No repeated characters. -/
def nodupChars : List Char → Bool
  | [] => true
  | c :: cs => !cs.contains c && nodupChars cs

/-- regexpp's flag validation: each character one of `gimsuy`, none
repeated. -/
def flagsValid (cs : List Char) : Bool :=
  cs.all (fun c => validFlagChars.contains c) && nodupChars cs

/-- Whether `parsePattern` of `parse.js` returns `ok: true`, with the
regexpp pattern-grammar validator abstracted as `patternCheck`. -/
def parsePatternOk (patternCheck : List Char → Bool) (body flags : String) : Bool :=
  match splitLiteral (buildLiteral body flags) with
  | none => false
  | some (pat, fl) => flagsValid fl && patternCheck pat

/-- Modelled from the spec: the validation oracle the parser is required to
consult — "a real compile of (body, flags) using the runtime matching
engine".  The engine accepts the two-character body `\/` with empty flags:
`IdentityEscape` explicitly admits `/` (ECMA-262), as the repository's own
smoke-test URL pattern relies on. -/
def runtimeCompilesEscapedSlash : Bool := true

/-- C1.  `parsePattern` disagrees with the runtime engine: on the body
`\/` (backslash, slash) with empty flags — which the engine compiles — it
returns a failure whatever the pattern-grammar validator would say.  The
slash re-escaping turns the already-escaped `\/` into `\\/`, whose
unescaped slash closes the literal early and leaves `/` behind as an
invalid flag character. -/
theorem c1_parse_disagrees_with_engine :
    ∀ patternCheck : List Char → Bool,
      parsePatternOk patternCheck "\\/" "" = false
        ∧ runtimeCompilesEscapedSlash = true :=
  fun _ => ⟨rfl, rfl⟩

/-! ## The two walk disciplines on parent-linked object graphs (C9)

regexpp ASTs are object graphs, not trees: every node's `parent` field
points back at its parent.  The walks of `risks.js` and `intentmap.js`
skip the `parent` key and keep a `WeakSet` of visited identities; the
estimator's walk (`fpfn-rules.js`) recurses into every object-valued
field of every node with no visited set.  Both are modelled here over an
explicit heap: nodes are numeric identities, each mapped to its ordered
object-valued fields `(key, target)`. -/

/-- An object heap: node identity to object-valued fields. -/
def Heap : Type := List (Nat × List (String × Nat))

/-- The object-valued fields of a node. -/
def heapFields (h : Heap) (id : Nat) : List (String × Nat) :=
  ((List.lookup id h).getD [])

/-- The estimator's walk (`fpfn-rules.js`): visit the node, then recurse
into every field — `parent` included — with no visited set.  Fuel bounds
the recursion depth; `none` means the walk did not complete within it. -/
def walkE (h : Heap) : Nat → Nat → Option (List Nat)
  | 0, _ => none
  | fuel + 1, id =>
      (heapFields h id).foldl
        (fun acc kv =>
          match acc, walkE h fuel kv.2 with
          | some l1, some l2 => some (l1 ++ l2)
          | _, _ => none)
        (some [id])

/-- The guarded walk (`risks.js`/`intentmap.js`): skip already-seen
identities, record the node, and recurse into every field except
`parent`.  Returns the visit list and the grown seen set. -/
def walkR (h : Heap) : Nat → Nat → List Nat → List Nat × List Nat
  | 0, _, seen => ([], seen)
  | fuel + 1, id, seen =>
      if seen.contains id then ([], seen)
      else
        let r := ((heapFields h id).filter fun kv => kv.1 != "parent").foldl
          (fun (acc : List Nat × List Nat) kv =>
            let r1 := walkR h fuel kv.2 acc.2
            (acc.1 ++ r1.1, r1.2))
          ([], id :: seen)
        (id :: r.1, r.2)

/-- A minimal parent-linked tree as regexpp produces it: node 0 (the
pattern) holds node 1 in its `alternatives` array, and node 1 carries the
`parent` back-reference to node 0. -/
def parentLinkedHeap : Heap :=
  [(0, [("alternatives.0", 1)]), (1, [("parent", 0)])]

set_option maxRecDepth 2000 in
/-- C9.  On the minimal parent-linked two-node tree, the estimator's walk
fails to complete even with recursion depth 100 — it follows the `parent`
field back and forth without a visited set — while the guarded walk of
`risks.js`/`intentmap.js` terminates at once, visiting each of the two
identities exactly once and never following `parent`. -/
theorem c9_estimator_walk_unbounded :
    walkE parentLinkedHeap 100 0 = none
      ∧ (walkR parentLinkedHeap 100 0 []).1 = [0, 1] := by
  decide

end GS
